import Mathlib

/-!
Shallow embedding of the visit-to-billing coordination core of the HomeoPMS
clinic application, translated from the billing page (src/unnamed/part_000),
the pharmacy page (src/src/app/pharmacy/page.tsx) and the record shapes of
src/src/lib/db/schema.ts.

Conventions of the embedding:
* JS numbers holding money are modelled as rationals.
* JS Date values are modelled as natural millisecond timestamps. Both
  toDateString equality and the ISO day prefix bucket a timestamp by calendar
  day; this is modelled by integer division by the milliseconds of one day.
* Nullable / possibly-undefined record fields are modelled as Option.
* The generic record store (lib/db/database, an external collaborator per the
  specification) is modelled as in-memory lists inside DbState: create appends
  a record carrying a fresh id, update maps over the list rewriting the record
  with the given id, getAll / getById / query-by-field read the list.
* A few store helpers are repository code that is not present under src
  (billingQueueDb.markPaid, billingQueueDb.markCompleted,
  billingQueueDb.generateReceiptNumber, pharmacyQueueDb.markPrepared); each is
  modelled from the spec and carries a doc comment saying so.
-/

namespace HomeoPMS

/-- Milliseconds of one calendar day, as used by the JS Date bucketing. -/
def dayMs : Nat := 86400000

/-- Calendar day index of a millisecond timestamp. Models both
Date.toDateString() equality and toISOString().split(\x27T\x27)[0] equality. -/
def dayOf (t : Nat) : Nat := t / dayMs

/-- Appointment record (schema.ts; the core reads status, date and fee fields). -/
structure Appointment where
  id : String
  patientId : String
  appointmentDate : Nat
  status : String
  feeAmount : Option ℚ
  feeType : Option String
  feeStatus : Option String
deriving DecidableEq

/-- Doctor visit record (schema.ts; the core reads visitNumber). -/
structure DoctorVisit where
  id : String
  patientId : String
  visitNumber : Nat
deriving DecidableEq

/-- Prescription record (schema.ts; the change-detection watermark reads id and
visitId; clinical fields are irrelevant to the claims and omitted). -/
structure DoctorPrescription where
  id : String
  visitId : String
deriving DecidableEq

/-- Pharmacy queue item (schema.ts PharmacyQueueItem). -/
structure PharmacyQueueItem where
  id : String
  visitId : String
  patientId : String
  appointmentId : Option String
  prescriptionIds : List String
  priority : Bool
  status : String
  preparedBy : Option String
  stopReason : Option String
  createdAt : Nat
deriving DecidableEq

/-- Billing queue item (schema.ts BillingQueueItem). The schema narrows status
to {pending, paid, completed}; a String keeps the embedding uniform with the
pharmacy statuses. -/
structure BillingQueueItem where
  id : String
  visitId : String
  patientId : String
  appointmentId : Option String
  prescriptionIds : List String
  status : String
  feeAmount : ℚ
  feeType : String
  discountPercent : Option ℚ
  discountAmount : Option ℚ
  netAmount : ℚ
  paymentMethod : Option String
  paymentStatus : String
  receiptNumber : Option String
  createdAt : Nat
deriving DecidableEq

/-- One line of a billing receipt (schema.ts BillingReceiptItem). -/
structure BillingReceiptItem where
  description : String
  quantity : Nat
  unitPrice : ℚ
  total : ℚ
deriving DecidableEq

/-- Billing receipt (schema.ts BillingReceipt). -/
structure BillingReceipt where
  id : String
  receiptNumber : String
  billingQueueId : String
  patientId : String
  visitId : String
  items : List BillingReceiptItem
  subtotal : ℚ
  discountPercent : Option ℚ
  discountAmount : Option ℚ
  netAmount : ℚ
  paymentMethod : String
  paymentStatus : String
  createdAt : Nat
deriving DecidableEq

/-- Fee history record created by handleComplete (part_000). -/
structure FeeHistoryEntry where
  patientId : String
  visitId : String
  receiptId : String
  feeType : String
  amount : ℚ
  paymentMethod : String
  paymentStatus : String
  paidDate : Nat
deriving DecidableEq

/-- The record store plus the ambient clock, holding every collection the
claims touch. nextId feeds the create operation of the store; receiptCounter
feeds the sequential receipt number allocator. -/
structure DbState where
  appointments : List Appointment
  visits : List DoctorVisit
  prescriptions : List DoctorPrescription
  pharmacyItems : List PharmacyQueueItem
  billingItems : List BillingQueueItem
  receipts : List BillingReceipt
  feeHistory : List FeeHistoryEntry
  now : Nat
  nextId : Nat
  receiptCounter : Nat
deriving DecidableEq

/-- Fresh id handed out by the store on create (generateId in the source). -/
def freshId (s : DbState) : String := "id-" ++ toString s.nextId

/-- appointmentDb.getById. -/
def getAppointment (s : DbState) (aid : String) : Option Appointment :=
  s.appointments.find? (fun a => a.id == aid)

/-- appointmentDb.getByPatient. -/
def appointmentsOf (s : DbState) (pid : String) : List Appointment :=
  s.appointments.filter (fun a => a.patientId == pid)

/-- doctorVisitDb.getById. -/
def getVisit (s : DbState) (vid : String) : Option DoctorVisit :=
  s.visits.find? (fun v => v.id == vid)

/-- doctorPrescriptionDb.getByVisit. -/
def prescriptionsOf (s : DbState) (vid : String) : List DoctorPrescription :=
  s.prescriptions.filter (fun p => p.visitId == vid)

/-- pharmacyQueueDb.getById. -/
def getPharmacy (s : DbState) (id : String) : Option PharmacyQueueItem :=
  s.pharmacyItems.find? (fun p => p.id == id)

/-- billingQueueDb lookup by id (find over getAll). -/
def getBilling (s : DbState) (id : String) : Option BillingQueueItem :=
  s.billingItems.find? (fun b => b.id == id)

/-- billingQueueDb.update with a field patch captured as a function. -/
def updateBilling (s : DbState) (id : String) (f : BillingQueueItem → BillingQueueItem) :
    DbState :=
  { s with billingItems := s.billingItems.map (fun b => if b.id == id then f b else b) }

/-- pharmacyQueueDb.update with a field patch captured as a function. -/
def updatePharmacy (s : DbState) (id : String) (f : PharmacyQueueItem → PharmacyQueueItem) :
    DbState :=
  { s with pharmacyItems := s.pharmacyItems.map (fun p => if p.id == id then f p else p) }

/-- appointmentDb.update with a field patch captured as a function. -/
def updateAppointment (s : DbState) (id : String) (f : Appointment → Appointment) :
    DbState :=
  { s with appointments := s.appointments.map (fun a => if a.id == id then f a else a) }

/-- True when the timestamp falls between the midnight opening the day of now
and 23:59:59.999 of that day, as computed by the today / todayEnd range checks
of the source. -/
def withinToday (now t : Nat) : Bool :=
  decide (dayOf now * dayMs ≤ t ∧ t ≤ dayOf now * dayMs + (dayMs - 1))

/-- billingQueueDb.create as called from both admission sites: the caller
supplies visitId, patientId, appointmentId and prescriptionIds copied from the
pharmacy item, status and paymentStatus pending, the resolved fee, and
netAmount equal to the fee; the store adds id and createdAt. -/
def createBillingFromPharmacy (s : DbState) (p : PharmacyQueueItem)
    (feeAmount : ℚ) (feeType : String) : DbState :=
  let b : BillingQueueItem :=
    { id := freshId s, visitId := p.visitId, patientId := p.patientId,
      appointmentId := p.appointmentId, prescriptionIds := p.prescriptionIds,
      status := "pending", feeAmount := feeAmount, feeType := feeType,
      discountPercent := none, discountAmount := none, netAmount := feeAmount,
      paymentMethod := none, paymentStatus := "pending", receiptNumber := none,
      createdAt := s.now }
  { s with billingItems := s.billingItems ++ [b], nextId := s.nextId + 1 }

/-- Fee correction computed by loadQueue (part_000, lines 140-198) for one
pending billing item: correctFee / correctFeeType / correctPaymentStatus start
at the stored values; a linked appointment with a non-null feeAmount overrides
them (feeType and feeStatus only when present); otherwise the first same-day
appointment of the patient overrides them under the same non-null-fee guard;
otherwise the stored values stand. -/
def resolvePendingFee (appts : List Appointment) (now : Nat) (item : BillingQueueItem) :
    ℚ × String × String :=
  let linked : Option Appointment :=
    match item.appointmentId with
    | some aid => appts.find? (fun a => a.id == aid)
    | none => none
  let viaLinked : Option (ℚ × String × String) :=
    match linked with
    | some apt =>
      match apt.feeAmount with
      | some fa => some (fa, apt.feeType.getD item.feeType, apt.feeStatus.getD item.paymentStatus)
      | none => none
    | none => none
  match viaLinked with
  | some r => r
  | none =>
    match (appts.filter (fun a => a.patientId == item.patientId)).find?
        (fun a => withinToday now a.appointmentDate) with
    | some apt =>
      match apt.feeAmount with
      | some fa => (fa, apt.feeType.getD item.feeType, apt.feeStatus.getD item.paymentStatus)
      | none => (item.feeAmount, item.feeType, item.paymentStatus)
    | none => (item.feeAmount, item.feeType, item.paymentStatus)

/-- The body of the forEach of loadQueue over the date-filtered items: a
pending item whose resolved fee triple differs from the stored one is updated
in place, with netAmount recomputed as correctFee minus the stored
discountAmount (or 0); other items are left alone. -/
def resyncItem (s : DbState) (item : BillingQueueItem) : DbState :=
  if item.status = "pending" then
    let r := resolvePendingFee s.appointments s.now item
    if r.1 = item.feeAmount ∧ r.2.1 = item.feeType ∧ r.2.2 = item.paymentStatus then s
    else
      updateBilling s item.id (fun b =>
        { b with feeAmount := r.1, feeType := r.2.1, paymentStatus := r.2.2,
                 netAmount := r.1 - (item.discountAmount.getD 0) })
  else s

/-- The billing queue items whose createdAt falls on the given calendar day
(the toDateString filter of loadQueue). -/
def billingItemsOnDay (items : List BillingQueueItem) (day : Nat) : List BillingQueueItem :=
  items.filter (fun i => dayOf i.createdAt == day)

/-- The fee-resync pass of loadQueue: the forEach over the date-filtered
snapshot of the billing queue. -/
def resyncPendingFees (s : DbState) (day : Nat) : DbState :=
  (billingItemsOnDay s.billingItems day).foldl resyncItem s

/-- Ascending sort by creation time (sortByDateAsc of loadQueue). -/
def sortByDateAsc (l : List BillingQueueItem) : List BillingQueueItem :=
  l.mergeSort (fun a b => decide (a.createdAt ≤ b.createdAt))

/-- Descending sort by creation time (sortByDateDesc of loadQueue). -/
def sortByDateDesc (l : List BillingQueueItem) : List BillingQueueItem :=
  l.mergeSort (fun a b => decide (b.createdAt ≤ a.createdAt))

/-- loadQueue of the billing page (part_000, lines 126-243), for the selected
calendar day: runs the fee resync over the day-filtered snapshot, re-fetches
the day-filtered items, and splits them into the pending view (status pending
or paid, oldest first) and the completed view (status completed, newest
first). Returns the post-resync store and the two views. -/
def billingLoadQueue (s : DbState) (day : Nat) :
    DbState × List BillingQueueItem × List BillingQueueItem :=
  let s1 := resyncPendingFees s day
  let updated := billingItemsOnDay s1.billingItems day
  (s1,
   sortByDateAsc (updated.filter (fun i => i.status == "pending" || i.status == "paid")),
   sortByDateDesc (updated.filter (fun i => i.status == "completed")))

/-- Fee resolution of checkPharmacyQueue (part_000, lines 259-316): defaults
300 / Consultation; a present appointmentId is looked up and its non-null fee
fields override the defaults, with no fallthrough when the linked appointment
is missing or carries no fee; only when no appointmentId is present does the
code search the same-day appointments of the patient and then fall back to the
visit-number heuristic. -/
def resolveSweepFee (s : DbState) (p : PharmacyQueueItem) : ℚ × String :=
  match p.appointmentId with
  | some aid =>
    match getAppointment s aid with
    | some apt => (apt.feeAmount.getD 300, apt.feeType.getD "Consultation")
    | none => (300, "Consultation")
  | none =>
    match (appointmentsOf s p.patientId).find? (fun a => withinToday s.now a.appointmentDate) with
    | some apt => (apt.feeAmount.getD 300, apt.feeType.getD "Consultation")
    | none =>
      match getVisit s p.visitId with
      | some v => if v.visitNumber = 1 then ((500 : ℚ), "New Patient") else ((300 : ℚ), "Follow Up")
      | none => (300, "Consultation")

/-- The forEach body of checkPharmacyQueue for one prepared pharmacy item: if
any billing item with the same visitId exists (whatever its status), nothing
happens; otherwise a billing item is created and the pharmacy item is marked
billed. -/
def admitPrepared (s : DbState) (p : PharmacyQueueItem) : DbState :=
  match s.billingItems.find? (fun b => b.visitId == p.visitId) with
  | some _ => s
  | none =>
    let fee := resolveSweepFee s p
    let s1 := createBillingFromPharmacy s p fee.1 fee.2
    updatePharmacy s1 p.id (fun q => { q with status := "billed" })

/-- checkPharmacyQueue (part_000, lines 245-334) without its trailing
loadQueue refresh: the sweep over the snapshot of prepared pharmacy items. -/
def checkPharmacyQueue (s : DbState) : DbState :=
  (s.pharmacyItems.filter (fun p => p.status == "prepared")).foldl admitPrepared s

/-- The complete periodic sweep: checkPharmacyQueue ends by calling loadQueue,
whose store effect is the fee resync over the selected day. -/
def pharmacySweep (s : DbState) (day : Nat) : DbState :=
  (billingLoadQueue (checkPharmacyQueue s) day).1

/-- Modelled from the spec: billingQueueDb.generateReceiptNumber (lib/db/
database is not under src). The spec asks for a unique, sequential,
human-presentable identifier; the allocator draws from receiptCounter. -/
def generateReceiptNumber (s : DbState) : String :=
  "RCPT-" ++ toString (s.receiptCounter + 1)

/-- Modelled from the spec: billingQueueDb.markPaid (lib/db/database is not
under src) marks the billing item paid, storing paymentMethod and
receiptNumber. -/
def markPaid (s : DbState) (id : String) (method : String) (rn : String) : DbState :=
  updateBilling s id (fun b =>
    { b with status := "paid", paymentMethod := some method, receiptNumber := some rn })

/-- Modelled from the spec: billingQueueDb.markCompleted (lib/db/database is
not under src) sets the billing item status to completed. -/
def markCompleted (s : DbState) (id : String) : DbState :=
  updateBilling s id (fun b => { b with status := "completed" })

/-- handleGenerateReceipt (part_000, lines 727-761): allocate a receipt
number, create an immutable receipt snapshot of the item with paymentStatus
paid, then mark the billing item paid with method item.paymentMethod or
cash. -/
def handleGenerateReceipt (s : DbState) (item : BillingQueueItem) : DbState :=
  let rn := generateReceiptNumber s
  let s0 := { s with receiptCounter := s.receiptCounter + 1 }
  let r : BillingReceipt :=
    { id := freshId s0, receiptNumber := rn, billingQueueId := item.id,
      patientId := item.patientId, visitId := item.visitId,
      items := [{ description := item.feeType, quantity := 1,
                  unitPrice := item.feeAmount, total := item.feeAmount }],
      subtotal := item.feeAmount, discountPercent := item.discountPercent,
      discountAmount := item.discountAmount, netAmount := item.netAmount,
      paymentMethod := item.paymentMethod.getD "cash", paymentStatus := "paid",
      createdAt := s0.now }
  let s1 := { s0 with receipts := s0.receipts ++ [r], nextId := s0.nextId + 1 }
  markPaid s1 item.id (item.paymentMethod.getD "cash") rn

/-- The fee history record handleComplete appends for a billing item. -/
def completionEntry (now : Nat) (item : BillingQueueItem) : FeeHistoryEntry :=
  { patientId := item.patientId, visitId := item.visitId,
    receiptId := item.receiptNumber.getD "",
    feeType := if item.feeType = "New Patient" then "first-visit" else "follow-up",
    amount := item.netAmount, paymentMethod := item.paymentMethod.getD "cash",
    paymentStatus := "paid", paidDate := now }

/-- handleComplete (part_000, lines 888-910): mark the billing item completed,
set a linked appointment to completed, and append a fee history record,
unconditionally on every invocation. -/
def handleComplete (s : DbState) (item : BillingQueueItem) : DbState :=
  let s1 := markCompleted s item.id
  let s2 :=
    match item.appointmentId with
    | some aid => updateAppointment s1 aid (fun a => { a with status := "completed" })
    | none => s1
  { s2 with feeHistory := s2.feeHistory ++ [completionEntry s2.now item] }

/-- handleReopen (part_000, lines 913-920): set the billing item status back
to paid; nothing else. -/
def handleReopen (s : DbState) (item : BillingQueueItem) : DbState :=
  updateBilling s item.id (fun b => { b with status := "paid" })

/-- One line of the in-progress medicine bill; only the amount takes part in
the calculator (part_000 models the rest as display data). -/
structure BillLineItem where
  medicine : String
  amount : ℚ
deriving DecidableEq

/-- getBillSubtotal (part_000, lines 511-513): reduce summing the amounts. -/
def getBillSubtotal (billItems : List BillLineItem) : ℚ :=
  billItems.foldl (fun sum item => sum + item.amount) 0

/-- getBillDiscountAmount (part_000, lines 515-517). -/
def getBillDiscountAmount (billItems : List BillLineItem) (billDiscount : ℚ) : ℚ :=
  getBillSubtotal billItems * billDiscount / 100

/-- getBillTaxAmount (part_000, lines 519-521): tax applies after discount. -/
def getBillTaxAmount (billItems : List BillLineItem) (billDiscount billTax : ℚ) : ℚ :=
  (getBillSubtotal billItems - getBillDiscountAmount billItems billDiscount) * billTax / 100

/-- getBillTotal (part_000, lines 523-525). -/
def getBillTotal (billItems : List BillLineItem) (billDiscount billTax : ℚ) : ℚ :=
  getBillSubtotal billItems - getBillDiscountAmount billItems billDiscount
    + getBillTaxAmount billItems billDiscount billTax

/-- The comparator of sortItems on the pharmacy page (lines 63-76) as a
total order test: a sorts no later than b when a has priority and b has not,
or both have the same priority flag and a was created no later. -/
def pharmLe (a b : PharmacyQueueItem) : Bool :=
  (a.priority && !b.priority) || ((a.priority == b.priority) && decide (a.createdAt ≤ b.createdAt))

/-- sortItems of the pharmacy page: priority first, then oldest first. -/
def sortItems (l : List PharmacyQueueItem) : List PharmacyQueueItem :=
  l.mergeSort pharmLe

/-- The active listing of the pharmacy loadQueue (lines 53-78): status pending
or preparing, sorted by sortItems. -/
def listActive (items : List PharmacyQueueItem) : List PharmacyQueueItem :=
  sortItems (items.filter (fun i => i.status == "pending" || i.status == "preparing"))

/-- The prepared listing of the pharmacy loadQueue: status prepared, sorted by
sortItems. -/
def listPrepared (items : List PharmacyQueueItem) : List PharmacyQueueItem :=
  sortItems (items.filter (fun i => i.status == "prepared"))

/-- The process-local watermark map of the pharmacy page
(previousPrescriptionIds): queue-item id to last observed concatenation. -/
abbrev Watermarks : Type := List (String × String)

/-- Map lookup on the watermark ref. -/
def wmGet (m : Watermarks) (k : String) : Option String :=
  ((List.find? (fun e => e.1 == k)) m).map (fun e => e.2)

/-- Map set on the watermark ref: overwrite the entry with the key, or append
a new entry. -/
def wmSet (m : Watermarks) (k v : String) : Watermarks :=
  if ((List.find? (fun e => e.1 == k)) m).isSome then
    List.map (fun e => if e.1 == k then (k, v) else e) m
  else m ++ [(k, v)]

/-- The concatenation of the ids of the live prescriptions of a visit,
joined by commas (enrichItems, line 92). -/
def rxConcat (s : DbState) (vid : String) : String :=
  String.intercalate "," ((prescriptionsOf s vid).map (fun p => p.id))

/-- enrichItems of the pharmacy page (lines 81-108), reduced to its watermark
effect: walk the listed items in order; an item is flagged hasUpdates when a
watermark for its id already existed and differs from the current
concatenation; the watermark is then overwritten. Returns the final map and
each item paired with its flag. -/
def enrichItems (s : DbState) (m : Watermarks) :
    List PharmacyQueueItem → Watermarks × List (PharmacyQueueItem × Bool)
  | [] => (m, [])
  | item :: rest =>
    let current := rxConcat s item.visitId
    let flag : Bool :=
      match wmGet m item.id with
      | none => false
      | some prev => prev != current
    let r := enrichItems s (wmSet m item.id current) rest
    (r.1, (item, flag) :: r.2)

/-- Result of one pharmacy loadQueue refresh. -/
structure RefreshResult where
  watermarks : Watermarks
  active : List (PharmacyQueueItem × Bool)
  prepared : List (PharmacyQueueItem × Bool)
  notificationRaised : Bool

/-- One refresh of the pharmacy loadQueue (lines 49-123): sort and filter the
two listings, enrich both through the shared watermark ref (active first),
and raise the transient notification exactly when some active item is flagged
and lastUpdateTime is positive. -/
def pharmacyRefresh (s : DbState) (m : Watermarks) (lastUpdateTime : Nat) : RefreshResult :=
  let a := enrichItems s m (listActive s.pharmacyItems)
  let p := enrichItems s a.1 (listPrepared s.pharmacyItems)
  { watermarks := p.1, active := a.2, prepared := p.2,
    notificationRaised := decide (0 < (a.2.filter (fun e => e.2)).length) && decide (0 < lastUpdateTime) }

/-- The lastUpdateTime state of the pharmacy page: initialised to 0 and never
written again anywhere in the source (setLastUpdateTime has no call site), so
every refresh runs with this value. -/
def pharmacyLastUpdateTime : Nat := 0

/-- The relevant same-day appointment search of handleMarkPrepared (pharmacy
page, lines 193-200): first appointment of the patient on the current ISO day
whose status is completed or in-progress. -/
def relevantAppointmentFor (s : DbState) (pid : String) : Option Appointment :=
  (appointmentsOf s pid).find? (fun a =>
    (dayOf a.appointmentDate == dayOf s.now) &&
    (a.status == "completed" || a.status == "in-progress"))

/-- The inline fee choice of handleMarkPrepared (lines 216-234): defaults
300 / Follow Up; a relevant same-day appointment overrides with its non-null
fee fields (no fallthrough when its fee is null); otherwise a visit with
visitNumber 1 gives 500 / New Patient. -/
def resolveMarkPreparedFee (relevantAppointment : Option Appointment)
    (visit : Option DoctorVisit) : ℚ × String :=
  match relevantAppointment with
  | some apt => (apt.feeAmount.getD 300, apt.feeType.getD "Follow Up")
  | none =>
    match visit with
    | some v => if v.visitNumber = 1 then ((500 : ℚ), "New Patient") else ((300 : ℚ), "Follow Up")
    | none => (300, "Follow Up")

/-- Modelled from the spec: pharmacyQueueDb.markPrepared (lib/db/doctor-panel
is not under src) transitions the item to prepared and records preparedBy. -/
def markPreparedDb (s : DbState) (id : String) (who : String) : DbState :=
  updatePharmacy s id (fun q => { q with status := "prepared", preparedBy := some who })

/-- handleMarkPrepared of the pharmacy page (lines 186-257): fetch the item,
mark it prepared, advance a relevant same-day appointment to
medicines-prepared, and admit the visit to billing inline unless a billing
item with the same visitId already exists. The pharmacy item is never marked
billed on this path. -/
def handleMarkPrepared (s : DbState) (itemId : String) : DbState :=
  let pharmacyItem := getPharmacy s itemId
  let s1 := markPreparedDb s itemId "pharmacy"
  match pharmacyItem with
  | none => s1
  | some p =>
    let relevant := relevantAppointmentFor s1 p.patientId
    let s2 :=
      match relevant with
      | some a => updateAppointment s1 a.id (fun ap => { ap with status := "medicines-prepared" })
      | none => s1
    match s2.billingItems.find? (fun b => b.visitId == p.visitId) with
    | some _ => s2
    | none =>
      let visit := getVisit s2 p.visitId
      let fee := resolveMarkPreparedFee relevant visit
      createBillingFromPharmacy s2 p fee.1 fee.2

/-! General lemmas about keyed lists, shared by the per-claim developments. -/

section KeyedLists

variable {α : Type} (keyOf : α → String)

/-- Updating the records holding one key rewrites the find? result at that key
through the patch, provided the patch keeps the key. -/
theorem find?_key_map (k : String) (g : α → α) (hg : ∀ a, keyOf (g a) = keyOf a)
    (l : List α) :
    (l.map (fun a => if keyOf a == k then g a else a)).find? (fun a => keyOf a == k)
      = (l.find? (fun a => keyOf a == k)).map g := by
  induction l with
  | nil => rfl
  | cons a l ih =>
    rw [List.map_cons]
    by_cases ha : (keyOf a == k) = true
    · rw [if_pos ha, @List.find?_cons_of_pos _ (fun x => keyOf x == k) (g a) _ (by simpa [hg] using ha),
          @List.find?_cons_of_pos _ (fun x => keyOf x == k) a _ ha, Option.map_some']
    · rw [if_neg ha, @List.find?_cons_of_neg _ (fun x => keyOf x == k) a _ ha,
          @List.find?_cons_of_neg _ (fun x => keyOf x == k) a _ ha, ih]

/-- Updating the records holding one key leaves find? at any other key
untouched, provided the patch keeps the key. -/
theorem find?_key_map_ne (k k' : String) (hk : k' ≠ k) (g : α → α)
    (hg : ∀ a, keyOf (g a) = keyOf a) (l : List α) :
    (l.map (fun a => if keyOf a == k then g a else a)).find? (fun a => keyOf a == k')
      = l.find? (fun a => keyOf a == k') := by
  induction l with
  | nil => rfl
  | cons a l ih =>
    rw [List.map_cons]
    by_cases ha : (keyOf a == k) = true
    · have hak : keyOf a = k := by simpa using ha
      have h1 : ¬ ((keyOf (g a) == k') = true) := by simp [hg, hak, hk.symm]
      have h2 : ¬ ((keyOf a == k') = true) := by simp [hak, hk.symm]
      rw [if_pos ha, @List.find?_cons_of_neg _ (fun x => keyOf x == k') (g a) _ h1,
          @List.find?_cons_of_neg _ (fun x => keyOf x == k') a _ h2, ih]
    · rw [if_neg ha]
      by_cases hb : (keyOf a == k') = true
      · rw [@List.find?_cons_of_pos _ (fun x => keyOf x == k') a _ hb,
            @List.find?_cons_of_pos _ (fun x => keyOf x == k') a _ hb]
      · rw [@List.find?_cons_of_neg _ (fun x => keyOf x == k') a _ hb,
            @List.find?_cons_of_neg _ (fun x => keyOf x == k') a _ hb, ih]

/-- Under key uniqueness, find? at the key of a member returns that member. -/
theorem find?_key_self (b : α) (l : List α) (hn : (l.map keyOf).Nodup) (hb : b ∈ l) :
    l.find? (fun a => keyOf a == keyOf b) = some b := by
  induction l with
  | nil => exact absurd hb (List.not_mem_nil b)
  | cons a l ih =>
    rcases List.mem_cons.mp hb with rfl | hb
    · simp [List.find?_cons]
    · have hne : keyOf a ≠ keyOf b := by
        intro h
        exact (List.nodup_cons.mp hn).1 (h ▸ List.mem_map_of_mem keyOf hb)
      simp only [List.map_cons, List.nodup_cons] at hn
      simp [List.find?_cons, hne, ih hn.2 hb]

/-- find? succeeds when a member satisfies the test. -/
theorem find?_isSome_of_mem {p : α → Bool} {l : List α} {x : α} (hx : x ∈ l)
    (hp : p x = true) : (l.find? p).isSome := by
  rcases h : l.find? p with _ | y
  · exact absurd hp (List.find?_eq_none.mp h x hx)
  · rfl

/-- Members with equal keys are equal when the mapped keys repeat nowhere. -/
theorem key_inj (l : List α) (hn : (l.map keyOf).Nodup) {a b : α}
    (ha : a ∈ l) (hb : b ∈ l) (hk : keyOf a = keyOf b) : a = b :=
  List.inj_on_of_nodup_map hn ha hb hk

end KeyedLists

/-! Claim C8: the medicine billing calculator. -/

/-- Folding the running sum over the line items equals the sum of the
amounts. -/
theorem getBillSubtotal_eq_sum (billItems : List BillLineItem) :
    getBillSubtotal billItems = (billItems.map (fun i => i.amount)).sum := by
  have aux : ∀ (l : List BillLineItem) (c : ℚ),
      l.foldl (fun sum item => sum + item.amount) c = c + (l.map (fun i => i.amount)).sum := by
    intro l
    induction l with
    | nil => intro c; simp
    | cons a l ih => intro c; simp [List.foldl_cons, ih]; ring
  simpa using aux billItems 0

/-- The concrete line items of the calculator scenario of the claim. -/
def billCalcScenarioItems : List BillLineItem :=
  [{ medicine := "m1", amount := 120 }, { medicine := "m2", amount := 80 }]

/-- C8: for every list of line items and every discount and tax percent, the
calculator satisfies subtotal = sum of amounts, discountAmount = subtotal
times discountPercent over 100, taxAmount = (subtotal - discountAmount) times
taxPercent over 100, and grandTotal = subtotal - discountAmount + taxAmount;
and line items [120, 80] with discountPercent 10 and taxPercent 5 give
subtotal 200, discountAmount 20, taxAmount 9, grandTotal 189. -/
theorem medicine_bill_calculator_correct :
    (∀ (billItems : List BillLineItem) (billDiscount billTax : ℚ),
      getBillSubtotal billItems = (billItems.map (fun i => i.amount)).sum ∧
      getBillDiscountAmount billItems billDiscount
        = getBillSubtotal billItems * billDiscount / 100 ∧
      getBillTaxAmount billItems billDiscount billTax
        = (getBillSubtotal billItems - getBillDiscountAmount billItems billDiscount)
            * billTax / 100 ∧
      getBillTotal billItems billDiscount billTax
        = getBillSubtotal billItems - getBillDiscountAmount billItems billDiscount
            + getBillTaxAmount billItems billDiscount billTax) ∧
    getBillSubtotal billCalcScenarioItems = 200 ∧
    getBillDiscountAmount billCalcScenarioItems 10 = 20 ∧
    getBillTaxAmount billCalcScenarioItems 10 5 = 9 ∧
    getBillTotal billCalcScenarioItems 10 5 = 189 := by
  have hsub : getBillSubtotal billCalcScenarioItems = 200 := by
    norm_num [getBillSubtotal, billCalcScenarioItems]
  refine ⟨fun billItems billDiscount billTax =>
    ⟨getBillSubtotal_eq_sum billItems, rfl, rfl, rfl⟩, hsub, ?_, ?_, ?_⟩
  · norm_num [getBillDiscountAmount, hsub]
  · norm_num [getBillTaxAmount, getBillDiscountAmount, hsub]
  · norm_num [getBillTotal, getBillTaxAmount, getBillDiscountAmount, hsub]

/-! Claim C6: the pharmacy listings. -/

/-- The sortItems comparator is transitive. -/
theorem pharmLe_trans (a b c : PharmacyQueueItem) (hab : pharmLe a b = true)
    (hbc : pharmLe b c = true) : pharmLe a c = true := by
  unfold pharmLe at *
  cases ha : a.priority <;> cases hb : b.priority <;> cases hc : c.priority <;>
    simp_all <;> omega

/-- The sortItems comparator is total. -/
theorem pharmLe_total (a b : PharmacyQueueItem) : (pharmLe a b || pharmLe b a) = true := by
  unfold pharmLe
  cases ha : a.priority <;> cases hb : b.priority <;> simp_all <;> omega

/-- The output of sortItems is pairwise ordered by the comparator. -/
theorem sortItems_pairwise (l : List PharmacyQueueItem) :
    List.Pairwise (fun a b => pharmLe a b = true) (sortItems l) :=
  List.sorted_mergeSort pharmLe_trans pharmLe_total l

/-- What the comparator says about an ordered pair: a priority item never
follows a non-priority one, and equal-priority items keep creation order. -/
theorem pharmLe_props {a b : PharmacyQueueItem} (h : pharmLe a b = true) :
    (b.priority = true → a.priority = true) ∧
    (a.priority = b.priority → a.createdAt ≤ b.createdAt) := by
  unfold pharmLe at h
  cases ha : a.priority <;> cases hb : b.priority <;> simp_all

/-- C6: listActive returns exactly the pending / preparing items; in the
result a priority item always precedes a non-priority one and equal-priority
items are ordered by ascending creation time; listPrepared does the same for
the prepared items. -/
theorem pharmacy_listing_filter_and_order (items : List PharmacyQueueItem) :
    (∀ x, x ∈ listActive items ↔ x ∈ items ∧ (x.status = "pending" ∨ x.status = "preparing")) ∧
    (∀ i j : Fin (listActive items).length, i < j →
      ((((listActive items).get j).priority = true → (((listActive items).get i)).priority = true) ∧
       ((((listActive items).get i)).priority = (((listActive items).get j)).priority →
         (((listActive items).get i)).createdAt ≤ (((listActive items).get j)).createdAt))) ∧
    (∀ x, x ∈ listPrepared items ↔ x ∈ items ∧ x.status = "prepared") ∧
    (∀ i j : Fin (listPrepared items).length, i < j →
      ((((listPrepared items).get j).priority = true → (((listPrepared items).get i)).priority = true) ∧
       ((((listPrepared items).get i)).priority = (((listPrepared items).get j)).priority →
         (((listPrepared items).get i)).createdAt ≤ (((listPrepared items).get j)).createdAt))) := by
  refine ⟨?_, ?_, ?_, ?_⟩
  · intro x
    rw [listActive, sortItems, (List.mergeSort_perm _ pharmLe).mem_iff]
    simp [List.mem_filter]
  · intro i j hij
    exact pharmLe_props (List.pairwise_iff_get.mp (sortItems_pairwise _) i j hij)
  · intro x
    rw [listPrepared, sortItems, (List.mergeSort_perm _ pharmLe).mem_iff]
    simp [List.mem_filter]
  · intro i j hij
    exact pharmLe_props (List.pairwise_iff_get.mp (sortItems_pairwise _) i j hij)

/-! Claim C2: the fee resolution priority order. -/

/-- The fallback of the resolution the claim describes, wording steps 2 and 3:
a same-day appointment of the patient that has a non-null feeAmount, else the
visit-number heuristic. Written from the claim wording, to be compared with
the resolution the source performs. -/
def claimedFeeFallback (s : DbState) (p : PharmacyQueueItem) : ℚ × String :=
  match (appointmentsOf s p.patientId).find?
      (fun a => withinToday s.now a.appointmentDate && a.feeAmount.isSome) with
  | some apt => (apt.feeAmount.getD 300, apt.feeType.getD "Consultation")
  | none =>
    match getVisit s p.visitId with
    | some v => if v.visitNumber = 1 then ((500 : ℚ), "New Patient") else ((300 : ℚ), "Follow Up")
    | none => (300, "Consultation")

/-- The fee resolution the claim describes, written from the claim wording for
comparison with the source: strict priority (1) linked appointment with a
non-null feeAmount, (2) same-day appointment with a non-null feeAmount,
(3) visit-number heuristic, with a linked appointment that carries no
feeAmount falling through to (2) and (3). -/
def claimedFeeResolution (s : DbState) (p : PharmacyQueueItem) : ℚ × String :=
  match (match p.appointmentId with | some aid => getAppointment s aid | none => none) with
  | some apt =>
    match apt.feeAmount with
    | some fa => (fa, apt.feeType.getD "Consultation")
    | none => claimedFeeFallback s p
  | none => claimedFeeFallback s p

/-- A pharmacy queue item linked to appointment a1, for the C2 and C3
scenarios. -/
def cex2Pharm : PharmacyQueueItem :=
  { id := "ph1", visitId := "v1", patientId := "p1", appointmentId := some "a1",
    prescriptionIds := [], priority := false, status := "prepared",
    preparedBy := none, stopReason := none, createdAt := 86400000 }

/-- A state holding a first-visit patient whose linked same-day appointment
carries no feeAmount. -/
def cex2State : DbState :=
  { appointments := [{ id := "a1", patientId := "p1", appointmentDate := 86400000,
                       status := "completed", feeAmount := none, feeType := none,
                       feeStatus := none }],
    visits := [{ id := "v1", patientId := "p1", visitNumber := 1 }],
    prescriptions := [], pharmacyItems := [cex2Pharm], billingItems := [],
    receipts := [], feeHistory := [], now := 86400000, nextId := 0, receiptCounter := 0 }

/-- C2 counterexample: with a linked appointment that carries no feeAmount,
a visitNumber of 1 and no other appointment, the sweep resolves to
(300, Consultation) while the claimed strict-priority resolution falls
through to (500, New Patient); the claim fails on this input. -/
theorem fee_resolution_fallthrough_counterexample :
    resolveSweepFee cex2State cex2Pharm = (300, "Consultation") ∧
    claimedFeeResolution cex2State cex2Pharm = (500, "New Patient") ∧
    resolveSweepFee cex2State cex2Pharm ≠ claimedFeeResolution cex2State cex2Pharm := by
  refine ⟨rfl, rfl, fun h => ?_⟩
  exact absurd (congrArg Prod.snd h) (by decide)

/-- C2 amended: the priority order holds with no fallthrough out of a linked
appointment. In the sweep, a present appointmentId short-circuits: a non-null
feeAmount is used, and otherwise the amount defaults to 300 with the
appointment feeType when present (never the same-day search or the visit
heuristic); only without an appointmentId does the code use a same-day
appointment and then the visit-number heuristic (1 gives 500 / New Patient,
otherwise 300 / Follow Up). In the markPrepared inline context the linked id
is never consulted: a same-day completed / in-progress appointment takes
priority, falling back to the visit-number heuristic. -/
theorem fee_resolution_priority_amended (s : DbState) (p : PharmacyQueueItem)
    (relevantAppointment : Option Appointment) (visit : Option DoctorVisit) :
    (∀ aid apt fa, p.appointmentId = some aid → getAppointment s aid = some apt →
      apt.feeAmount = some fa →
      resolveSweepFee s p = (fa, apt.feeType.getD "Consultation")) ∧
    (∀ aid apt, p.appointmentId = some aid → getAppointment s aid = some apt →
      apt.feeAmount = none →
      resolveSweepFee s p = (300, apt.feeType.getD "Consultation")) ∧
    (∀ aid, p.appointmentId = some aid → getAppointment s aid = none →
      resolveSweepFee s p = (300, "Consultation")) ∧
    (∀ apt, p.appointmentId = none →
      (appointmentsOf s p.patientId).find? (fun a => withinToday s.now a.appointmentDate)
        = some apt →
      resolveSweepFee s p = (apt.feeAmount.getD 300, apt.feeType.getD "Consultation")) ∧
    (∀ v, p.appointmentId = none →
      (appointmentsOf s p.patientId).find? (fun a => withinToday s.now a.appointmentDate)
        = none →
      getVisit s p.visitId = some v →
      resolveSweepFee s p
        = if v.visitNumber = 1 then ((500 : ℚ), "New Patient") else ((300 : ℚ), "Follow Up")) ∧
    (∀ apt, relevantAppointment = some apt →
      resolveMarkPreparedFee relevantAppointment visit
        = (apt.feeAmount.getD 300, apt.feeType.getD "Follow Up")) ∧
    (∀ v, relevantAppointment = none → visit = some v →
      resolveMarkPreparedFee relevantAppointment visit
        = if v.visitNumber = 1 then ((500 : ℚ), "New Patient") else ((300 : ℚ), "Follow Up")) := by
  refine ⟨?_, ?_, ?_, ?_, ?_, ?_, ?_⟩
  · intro aid apt fa h1 h2 h3; simp [resolveSweepFee, h1, h2, h3]
  · intro aid apt h1 h2 h3; simp [resolveSweepFee, h1, h2, h3]
  · intro aid h1 h2; simp [resolveSweepFee, h1, h2]
  · intro apt h1 h2; simp [resolveSweepFee, h1, h2]
  · intro v h1 h2 h3; simp [resolveSweepFee, h1, h2, h3]
  · intro apt h1; simp [resolveMarkPreparedFee, h1]
  · intro v h1 h2; simp [resolveMarkPreparedFee, h1, h2]

/-! Claim C3: marking the source pharmacy item billed. -/

/-- A billing item already admitted for visit v1, whatever its status. -/
def cex3Billing : BillingQueueItem :=
  { id := "b1", visitId := "v1", patientId := "p1", appointmentId := none,
    prescriptionIds := [], status := "completed", feeAmount := 300,
    feeType := "Follow Up", discountPercent := none, discountAmount := none,
    netAmount := 300, paymentMethod := none, paymentStatus := "paid",
    receiptNumber := none, createdAt := 0 }

/-- A state holding a prepared pharmacy item whose visit already has a billing
item. -/
def cex3State : DbState :=
  { appointments := [], visits := [], prescriptions := [],
    pharmacyItems := [cex2Pharm], billingItems := [cex3Billing],
    receipts := [], feeHistory := [], now := 86400000, nextId := 0, receiptCounter := 0 }

/-- C3 counterexample: processing a prepared pharmacy item whose visit already
has a billing item leaves the whole state unchanged; the pharmacy item stays
prepared and is not marked billed, so the claim that billed is set even when a
billing item already exists fails on this input. -/
theorem billed_marking_counterexample :
    checkPharmacyQueue cex3State = cex3State ∧
    getPharmacy cex3State "ph1" = some cex2Pharm ∧
    cex2Pharm.status = "prepared" ∧ cex2Pharm.status ≠ "billed" := by
  exact ⟨rfl, rfl, rfl, by decide⟩

/-- C3 amended: the sweep marks the source pharmacy item billed exactly when
it creates the billing item, that is when no billing item with the same
visitId existed; when one exists (whatever its status) the sweep step is a
no-op and the pharmacy item keeps its status; and the inline admission inside
markPrepared never sets billed at all. -/
theorem billed_marking_amended (s : DbState) (p : PharmacyQueueItem) (itemId : String) :
    (s.billingItems.find? (fun b => b.visitId == p.visitId) = none →
      (∀ q ∈ (admitPrepared s p).pharmacyItems, q.id = p.id → q.status = "billed") ∧
      ∃ b ∈ (admitPrepared s p).billingItems, b.visitId = p.visitId) ∧
    (∀ b, b ∈ s.billingItems → b.visitId = p.visitId → admitPrepared s p = s) ∧
    (∀ q, q ∈ (handleMarkPrepared s itemId).pharmacyItems → q.status = "billed" →
      ∃ q0 ∈ s.pharmacyItems, q0.id = q.id ∧ q0.status = "billed") := by
  refine ⟨?_, ?_, ?_⟩
  · intro hnone
    constructor
    · intro q hq hid
      simp only [admitPrepared, hnone, updatePharmacy, createBillingFromPharmacy,
        List.mem_map] at hq
      obtain ⟨q0, _, rfl⟩ := hq
      by_cases h0 : (q0.id == p.id) = true
      · simp [h0]
      · rw [if_neg h0] at hid ⊢
        exact absurd (by simpa using hid) h0
    · refine ⟨{ id := freshId s, visitId := p.visitId, patientId := p.patientId,
                appointmentId := p.appointmentId, prescriptionIds := p.prescriptionIds,
                status := "pending", feeAmount := (resolveSweepFee s p).1,
                feeType := (resolveSweepFee s p).2, discountPercent := none,
                discountAmount := none, netAmount := (resolveSweepFee s p).1,
                paymentMethod := none, paymentStatus := "pending", receiptNumber := none,
                createdAt := s.now }, ?_, rfl⟩
      simp [admitPrepared, hnone, updatePharmacy, createBillingFromPharmacy]
  · intro b hb hvid
    have hsome : (s.billingItems.find? (fun x => x.visitId == p.visitId)).isSome :=
      find?_isSome_of_mem hb (by simp [hvid])
    rcases h : s.billingItems.find? (fun x => x.visitId == p.visitId) with _ | y
    · rw [h] at hsome; exact absurd hsome (by simp)
    · simp [admitPrepared, h]
  · intro q hq hbilled
    have hph : (handleMarkPrepared s itemId).pharmacyItems
        = s.pharmacyItems.map (fun x =>
            if x.id == itemId then { x with status := "prepared", preparedBy := some "pharmacy" } else x) := by
      unfold handleMarkPrepared markPreparedDb updatePharmacy
      rcases getPharmacy s itemId with _ | p0
      · rfl
      · dsimp only
        rcases relevantAppointmentFor _ p0.patientId with _ | a <;> dsimp only <;>
          rcases List.find? _ _ with _ | b <;> rfl
    rw [hph, List.mem_map] at hq
    obtain ⟨q0, hq0, rfl⟩ := hq
    by_cases h0 : (q0.id == itemId) = true
    · rw [if_pos h0] at hbilled
      exact absurd (show ("prepared" : String) = "billed" from hbilled) (by decide)
    · rw [if_neg h0] at hbilled ⊢
      exact ⟨q0, hq0, rfl, hbilled⟩

/-! Claim C7: prescription-change detection on the pharmacy queue. -/

/-- Overwriting one key of the watermark map leaves lookups of other keys
unchanged. -/
theorem wmGet_set_ne (m : Watermarks) (k v k' : String) (h : k' ≠ k) :
    wmGet (wmSet m k v) k' = wmGet m k' := by
  unfold wmSet
  by_cases hex : ((List.find? (fun e => e.1 == k)) m).isSome
  · rw [if_pos hex]
    clear hex
    induction m with
    | nil => rfl
    | cons e m ih =>
      unfold wmGet
      rw [List.map_cons]
      by_cases he : (e.1 == k) = true
      · have hek : e.1 = k := by simpa using he
        have h1 : ¬ ((((k, v) : String × String).1 == k') = true) := by
          simp
          exact fun hh => h hh.symm
        have h2 : ¬ ((e.1 == k') = true) := by
          simp [hek]
          exact fun hh => h hh.symm
        rw [if_pos he, @List.find?_cons_of_neg _ (fun x => x.1 == k') ((k, v) : String × String) _ h1,
            @List.find?_cons_of_neg _ (fun x => x.1 == k') e _ h2]
        exact ih
      · rw [if_neg he]
        by_cases hb : (e.1 == k') = true
        · rw [@List.find?_cons_of_pos _ (fun x => x.1 == k') e _ hb,
              @List.find?_cons_of_pos _ (fun x => x.1 == k') e _ hb]
        · rw [@List.find?_cons_of_neg _ (fun x => x.1 == k') e _ hb,
              @List.find?_cons_of_neg _ (fun x => x.1 == k') e _ hb]
          exact ih
  · rw [if_neg hex]
    clear hex
    induction m with
    | nil =>
      have h1 : ¬ ((((k, v) : String × String).1 == k') = true) := by
        simp
        exact fun hh => h hh.symm
      unfold wmGet
      rw [List.nil_append,
          @List.find?_cons_of_neg _ (fun x => x.1 == k') ((k, v) : String × String) _ h1,
          List.find?_nil]
    | cons e m ih =>
      unfold wmGet
      rw [List.cons_append]
      by_cases hb : (e.1 == k') = true
      · rw [@List.find?_cons_of_pos _ (fun x => x.1 == k') e _ hb,
            @List.find?_cons_of_pos _ (fun x => x.1 == k') e _ hb]
      · rw [@List.find?_cons_of_neg _ (fun x => x.1 == k') e _ hb,
            @List.find?_cons_of_neg _ (fun x => x.1 == k') e _ hb]
        exact ih

/-- The enriched output lists exactly the input items, in order. -/
theorem enrichItems_fst (s : DbState) (items : List PharmacyQueueItem) :
    ∀ m : Watermarks, ((enrichItems s m items).2).map Prod.fst = items := by
  induction items with
  | nil => intro m; rfl
  | cons item rest ih => intro m; simp [enrichItems, ih]

/-- Flag characterisation of enrichItems: when the listed item ids repeat
nowhere, each item is flagged exactly when a watermark for its id existed
before the refresh and differs from the current concatenation. -/
theorem enrichItems_flag (s : DbState) (items : List PharmacyQueueItem) :
    ∀ m : Watermarks, (items.map (fun i => i.id)).Nodup →
      ∀ e ∈ (enrichItems s m items).2,
        e.2 = true ↔
          ((wmGet m e.1.id).isSome ∧ wmGet m e.1.id ≠ some (rxConcat s e.1.visitId)) := by
  induction items with
  | nil => intro m _ e he; simp [enrichItems] at he
  | cons item rest ih =>
    intro m hnd e he
    simp only [enrichItems, List.mem_cons] at he
    rcases he with rfl | he
    · rcases hw : wmGet m item.id with _ | prev
      · simp [hw]
      · simp [hw, bne_iff_ne]
    · have hfst : e.1 ∈ rest := by
        have := enrichItems_fst s rest (wmSet m item.id (rxConcat s item.visitId))
        exact this ▸ List.mem_map_of_mem Prod.fst he
      have hne : e.1.id ≠ item.id := by
        intro hid
        have : item.id ∈ rest.map (fun i => i.id) := hid ▸ List.mem_map_of_mem _ hfst
        simp only [List.map_cons, List.nodup_cons] at hnd
        exact hnd.1 this
      have := ih (wmSet m item.id (rxConcat s item.visitId))
        (by simpa using (List.nodup_cons.mp (by simpa using hnd)).2) e he
      rwa [wmGet_set_ne _ _ _ _ hne] at this

/-- Sorting and filtering the pharmacy queue keeps the item ids duplicate
free. -/
theorem listActive_ids_nodup (items : List PharmacyQueueItem)
    (h : (items.map (fun i => i.id)).Nodup) :
    ((listActive items).map (fun i => i.id)).Nodup := by
  have hperm : (listActive items).Perm
      (items.filter (fun i => i.status == "pending" || i.status == "preparing")) :=
    List.mergeSort_perm _ _
  have hsub : (items.filter (fun i => i.status == "pending" || i.status == "preparing")).Sublist
      items := List.filter_sublist _
  exact ((hperm.map (fun i => i.id)).nodup_iff).mpr ((hsub.map (fun i => i.id)).nodup h)

/-- The prepared listing also keeps the item ids duplicate free. -/
theorem listPrepared_ids_nodup (items : List PharmacyQueueItem)
    (h : (items.map (fun i => i.id)).Nodup) :
    ((listPrepared items).map (fun i => i.id)).Nodup := by
  have hperm : (listPrepared items).Perm (items.filter (fun i => i.status == "prepared")) :=
    List.mergeSort_perm _ _
  have hsub : (items.filter (fun i => i.status == "prepared")).Sublist items :=
    List.filter_sublist _
  exact ((hperm.map (fun i => i.id)).nodup_iff).mpr ((hsub.map (fun i => i.id)).nodup h)

/-- An item of the active listing comes from the queue with status pending or
preparing. -/
theorem mem_listActive (items : List PharmacyQueueItem) {x : PharmacyQueueItem}
    (hx : x ∈ listActive items) :
    x ∈ items ∧ (x.status = "pending" ∨ x.status = "preparing") := by
  have hperm := List.mergeSort_perm
    (items.filter (fun i => i.status == "pending" || i.status == "preparing")) pharmLe
  have hx' : x ∈ items.filter (fun i => i.status == "pending" || i.status == "preparing") :=
    hperm.mem_iff.mp hx
  rcases List.mem_filter.mp hx' with ⟨h1, h2⟩
  exact ⟨h1, by simpa using h2⟩

/-- An item of the prepared listing comes from the queue with status
prepared. -/
theorem mem_listPrepared (items : List PharmacyQueueItem) {x : PharmacyQueueItem}
    (hx : x ∈ listPrepared items) : x ∈ items ∧ x.status = "prepared" := by
  have hperm := List.mergeSort_perm (items.filter (fun i => i.status == "prepared")) pharmLe
  have hx' : x ∈ items.filter (fun i => i.status == "prepared") := hperm.mem_iff.mp hx
  rcases List.mem_filter.mp hx' with ⟨h1, h2⟩
  exact ⟨h1, by simpa using h2⟩

/-- Enriching a list of items only overwrites watermark entries of the
processed item ids: lookups of any other key still see the pre-refresh
value. -/
theorem enrichItems_wmGet_frame (s : DbState) (items : List PharmacyQueueItem) :
    ∀ (m : Watermarks) (k : String), (∀ i ∈ items, i.id ≠ k) →
      wmGet (enrichItems s m items).1 k = wmGet m k := by
  induction items with
  | nil => intro m k _; rfl
  | cons item rest ih =>
    intro m k hk
    show wmGet (enrichItems s (wmSet m item.id (rxConcat s item.visitId)) rest).1 k = wmGet m k
    rw [ih _ k (fun i hi => hk i (List.mem_cons_of_mem item hi)),
        wmGet_set_ne m item.id _ k
          (fun hh => hk item (List.mem_cons_self item rest) hh.symm)]

/-- C7 amended: on each refresh every listed queue item, of the active and of
the prepared listing alike, is flagged hasUpdates exactly when a watermark
for it already existed before the refresh and the current concatenation of
prescription ids differs from it (so a first observation never flags); the
transient notification is raised exactly when at least one active-listing
item is flagged and lastUpdateTime is positive; and since lastUpdateTime is
initialised to 0 and never written, no refresh ever raises the
notification. -/
theorem watermark_flag_amended (s : DbState) (m : Watermarks) (lastUpdateTime : Nat) :
    ((s.pharmacyItems.map (fun i => i.id)).Nodup →
      ∀ e ∈ (pharmacyRefresh s m lastUpdateTime).active,
        e.2 = true ↔
          ((wmGet m e.1.id).isSome ∧ wmGet m e.1.id ≠ some (rxConcat s e.1.visitId))) ∧
    ((s.pharmacyItems.map (fun i => i.id)).Nodup →
      ∀ e ∈ (pharmacyRefresh s m lastUpdateTime).prepared,
        e.2 = true ↔
          ((wmGet m e.1.id).isSome ∧ wmGet m e.1.id ≠ some (rxConcat s e.1.visitId))) ∧
    ((pharmacyRefresh s m lastUpdateTime).notificationRaised = true ↔
      (0 < ((pharmacyRefresh s m lastUpdateTime).active.filter (fun e => e.2)).length ∧
        0 < lastUpdateTime)) ∧
    (pharmacyRefresh s m pharmacyLastUpdateTime).notificationRaised = false := by
  refine ⟨?_, ?_, ?_, ?_⟩
  · intro hnd e he
    exact enrichItems_flag s (listActive s.pharmacyItems) m (listActive_ids_nodup _ hnd) e he
  · intro hnd e he
    have hiff := enrichItems_flag s (listPrepared s.pharmacyItems)
      ((enrichItems s m (listActive s.pharmacyItems)).1)
      (listPrepared_ids_nodup _ hnd) e he
    have hfst : e.1 ∈ listPrepared s.pharmacyItems := by
      have hmapfst := enrichItems_fst s (listPrepared s.pharmacyItems)
        ((enrichItems s m (listActive s.pharmacyItems)).1)
      exact hmapfst ▸ List.mem_map_of_mem Prod.fst he
    have hstat := mem_listPrepared s.pharmacyItems hfst
    have hnotin : ∀ i ∈ listActive s.pharmacyItems, i.id ≠ e.1.id := by
      intro a ha hid
      have hams := mem_listActive s.pharmacyItems ha
      have hae : a = e.1 := key_inj (fun i : PharmacyQueueItem => i.id) s.pharmacyItems hnd
        hams.1 hstat.1 hid
      rcases hams.2 with hs | hs <;> rw [hae, hstat.2] at hs <;>
        exact absurd hs (by decide)
    have hwm : wmGet ((enrichItems s m (listActive s.pharmacyItems)).1) e.1.id
        = wmGet m e.1.id :=
      enrichItems_wmGet_frame s (listActive s.pharmacyItems) m e.1.id hnotin
    rw [hwm] at hiff
    exact hiff
  · simp [pharmacyRefresh]
  · simp [pharmacyRefresh, pharmacyLastUpdateTime]

/-- An active pharmacy item whose stored prescription snapshot was rx1. -/
def cex7Item : PharmacyQueueItem :=
  { id := "ph1", visitId := "v1", patientId := "p1", appointmentId := none,
    prescriptionIds := ["rx1"], priority := false, status := "pending",
    preparedBy := none, stopReason := none, createdAt := 0 }

/-- A state where the live prescriptions of visit v1 are now rx2. -/
def cex7State : DbState :=
  { appointments := [], visits := [], prescriptions := [{ id := "rx2", visitId := "v1" }],
    pharmacyItems := [cex7Item], billingItems := [], receipts := [], feeHistory := [],
    now := 0, nextId := 0, receiptCounter := 0 }

/-- The watermark map after a previous observation of ph1 with rx1. -/
def cex7Marks : Watermarks := [("ph1", "rx1")]

/-- C7 counterexample: with a watermark rx1 for ph1 and current concatenation
rx2 the refresh flags the item, yet the notification is not raised, because
its guard also requires the never-written lastUpdateTime to be positive;
the claim that a notification is raised whenever an item is flagged fails on
this input. -/
theorem watermark_notification_counterexample :
    ((pharmacyRefresh cex7State cex7Marks pharmacyLastUpdateTime).active.filter
        (fun e => e.2)).length = 1 ∧
    (pharmacyRefresh cex7State cex7Marks pharmacyLastUpdateTime).notificationRaised = false := by
  have ha : listActive cex7State.pharmacyItems = [cex7Item] := by
    simp [listActive, sortItems, List.mergeSort, cex7State, cex7Item]
  have hact : (pharmacyRefresh cex7State cex7Marks pharmacyLastUpdateTime).active
      = (enrichItems cex7State cex7Marks [cex7Item]).2 := by
    simp only [pharmacyRefresh, ha]
  have hnot : (pharmacyRefresh cex7State cex7Marks pharmacyLastUpdateTime).notificationRaised
      = false := by
    simp [pharmacyRefresh, pharmacyLastUpdateTime]
  refine ⟨?_, hnot⟩
  rw [hact]
  rfl

/-! Claims C4 and C9: the billing status machine. -/

/-- Updating a billing item by id rewrites the lookup at that id through the
patch. -/
theorem getBilling_updateBilling (s : DbState) (id : String)
    (g : BillingQueueItem → BillingQueueItem) (hg : ∀ b, (g b).id = b.id) :
    getBilling (updateBilling s id g) id = (getBilling s id).map g := by
  unfold getBilling updateBilling
  exact find?_key_map (fun b => b.id) id g hg s.billingItems

/-- Updating a billing item by id leaves lookups of other ids unchanged. -/
theorem getBilling_updateBilling_ne (s : DbState) (id id' : String) (h : id' ≠ id)
    (g : BillingQueueItem → BillingQueueItem) (hg : ∀ b, (g b).id = b.id) :
    getBilling (updateBilling s id g) id' = getBilling s id' := by
  unfold getBilling updateBilling
  exact find?_key_map_ne (fun b => b.id) id id' h g hg s.billingItems

/-- handleComplete appends the completion record to the fee history
unconditionally, on every invocation, whatever the state and the item. -/
theorem handleComplete_feeHistory (t : DbState) (j : BillingQueueItem) :
    (handleComplete t j).feeHistory = t.feeHistory ++ [completionEntry t.now j] := by
  unfold handleComplete
  rcases j.appointmentId with _ | aid <;> rfl

/-- handleComplete changes the billing items exactly as markCompleted does. -/
theorem handleComplete_billingItems (t : DbState) (j : BillingQueueItem) :
    (handleComplete t j).billingItems = (markCompleted t j.id).billingItems := by
  unfold handleComplete
  rcases j.appointmentId with _ | aid <;> rfl

/-- Lookup of the item paid by handleGenerateReceipt. -/
theorem getBilling_handleGenerateReceipt (s : DbState) (item : BillingQueueItem)
    (x : String) (hx : x = item.id) :
    getBilling (handleGenerateReceipt s item) x
      = (getBilling s x).map (fun b =>
          { b with status := "paid", paymentMethod := some (item.paymentMethod.getD "cash"),
                   receiptNumber := some (generateReceiptNumber s) }) := by
  subst hx
  unfold handleGenerateReceipt markPaid updateBilling getBilling
  dsimp only
  refine find?_key_map (fun b => b.id) item.id _ ?_ s.billingItems
  exact fun b => rfl

/-- Lookup of the item completed by handleComplete. -/
theorem getBilling_handleComplete (s : DbState) (item : BillingQueueItem)
    (x : String) (hx : x = item.id) :
    getBilling (handleComplete s item) x
      = (getBilling s x).map (fun b => { b with status := "completed" }) := by
  subst hx
  unfold getBilling
  rw [handleComplete_billingItems]
  unfold markCompleted updateBilling
  dsimp only
  refine find?_key_map (fun b => b.id) item.id _ ?_ s.billingItems
  exact fun b => rfl

/-- Lookup of the item reopened by handleReopen. -/
theorem getBilling_handleReopen (s : DbState) (item : BillingQueueItem)
    (x : String) (hx : x = item.id) :
    getBilling (handleReopen s item) x
      = (getBilling s x).map (fun b => { b with status := "paid" }) := by
  subst hx
  unfold handleReopen updateBilling getBilling
  dsimp only
  refine find?_key_map (fun b => b.id) item.id _ ?_ s.billingItems
  exact fun b => rfl

/-- C4: for a pending billing item (with no stored payment method or method
cash), generateReceipt sets the stored status to paid recording method cash
and the allocated receipt number, leaves netAmount unchanged, and appends one
receipt with paymentStatus paid over the same amounts; a following complete
sets the stored status to completed and appends exactly one fee history
record with paymentMethod cash and amount equal to the item netAmount; a
following reopen sets the stored status back to paid and leaves the fee
history untouched. -/
theorem billing_status_machine_scenario (s : DbState) (i : BillingQueueItem)
    (hfind : getBilling s i.id = some i) (hst : i.status = "pending")
    (hpm : i.paymentMethod = none ∨ i.paymentMethod = some "cash") :
    let rn := generateReceiptNumber s
    let i1 : BillingQueueItem :=
      { i with status := "paid", paymentMethod := some "cash", receiptNumber := some rn }
    let s1 := handleGenerateReceipt s i
    let i2 : BillingQueueItem := { i1 with status := "completed" }
    let s2 := handleComplete s1 i1
    let s3 := handleReopen s2 i2
    getBilling s1 i.id = some i1 ∧
    i1.netAmount = i.netAmount ∧
    (∃ r, s1.receipts = s.receipts ++ [r] ∧ r.paymentStatus = "paid" ∧
      r.billingQueueId = i.id ∧ r.netAmount = i.netAmount ∧ r.paymentMethod = "cash") ∧
    getBilling s2 i.id = some i2 ∧
    s2.feeHistory = s.feeHistory ++ [completionEntry s.now i1] ∧
    (completionEntry s.now i1).paymentMethod = "cash" ∧
    (completionEntry s.now i1).amount = i.netAmount ∧
    getBilling s3 i.id = some { i2 with status := "paid" } ∧
    s3.feeHistory = s2.feeHistory := by
  have hm : i.paymentMethod.getD "cash" = "cash" := by rcases hpm with h | h <;> simp [h]
  intro rn i1 s1 i2 s2 s3
  have h1 : getBilling s1 i.id = some i1 := by
    show getBilling (handleGenerateReceipt s i) i.id = some i1
    rw [getBilling_handleGenerateReceipt s i i.id rfl, hfind, Option.map_some', hm]
  have h4 : getBilling s2 i.id = some i2 := by
    show getBilling (handleComplete s1 i1) i.id = some i2
    rw [getBilling_handleComplete s1 i1 i.id rfl, h1, Option.map_some']
  have h8 : getBilling s3 i.id = some { i2 with status := "paid" } := by
    show getBilling (handleReopen s2 i2) i.id = some _
    rw [getBilling_handleReopen s2 i2 i.id rfl, h4, Option.map_some']
  have h5 : s2.feeHistory = s.feeHistory ++ [completionEntry s.now i1] := by
    show (handleComplete s1 i1).feeHistory = s.feeHistory ++ [completionEntry s.now i1]
    rw [handleComplete_feeHistory]
    rfl
  refine ⟨h1, rfl, ⟨_, rfl, rfl, rfl, rfl, ?_⟩, h4, h5, ?_, rfl, h8, rfl⟩
  · show i.paymentMethod.getD "cash" = "cash"
    exact hm
  · show i1.paymentMethod.getD "cash" = "cash"
    rfl

/-- A pending billing item with no stored payment method, for the C4
witness. -/
def wit4Item : BillingQueueItem :=
  { id := "b1", visitId := "v1", patientId := "p1", appointmentId := none,
    prescriptionIds := [], status := "pending", feeAmount := 500,
    feeType := "New Patient", discountPercent := none, discountAmount := none,
    netAmount := 500, paymentMethod := none, paymentStatus := "pending",
    receiptNumber := none, createdAt := 0 }

/-- A store holding only that pending billing item. -/
def wit4State : DbState :=
  { appointments := [], visits := [], prescriptions := [], pharmacyItems := [],
    billingItems := [wit4Item], receipts := [], feeHistory := [],
    now := 0, nextId := 0, receiptCounter := 0 }

/-- Witness instantiating C4 at the concrete pending item. -/
theorem billing_status_machine_scenario_witness :
    getBilling (handleGenerateReceipt wit4State wit4Item) wit4Item.id
      = some { wit4Item with status := "paid", paymentMethod := some "cash",
                             receiptNumber := some (generateReceiptNumber wit4State) } :=
  (billing_status_machine_scenario wit4State wit4Item rfl rfl (Or.inl rfl)).1

/-- C9: handleComplete appends a fee history record unconditionally with no
existing-record check, handleReopen makes the item paid again, so running
complete, reopen, complete on the same billing item appends two fee history
records carrying its visitId. -/
theorem complete_reopen_complete_double_history (s : DbState) (i : BillingQueueItem)
    (hfind : getBilling s i.id = some i) (hst : i.status = "paid") :
    let s1 := handleComplete s i
    let s2 := handleReopen s1 { i with status := "completed" }
    let s3 := handleComplete s2 { i with status := "paid" }
    (∀ (t : DbState) (j : BillingQueueItem),
      (handleComplete t j).feeHistory = t.feeHistory ++ [completionEntry t.now j]) ∧
    getBilling s1 i.id = some { i with status := "completed" } ∧
    getBilling s2 i.id = some { i with status := "paid" } ∧
    s3.feeHistory.countP (fun e => e.visitId == i.visitId)
      = s.feeHistory.countP (fun e => e.visitId == i.visitId) + 2 := by
  intro s1 s2 s3
  have h1 : getBilling s1 i.id = some { i with status := "completed" } := by
    show getBilling (handleComplete s i) i.id = some _
    rw [getBilling_handleComplete s i i.id rfl, hfind, Option.map_some']
  have h2 : getBilling s2 i.id = some { i with status := "paid" } := by
    show getBilling (handleReopen s1 { i with status := "completed" }) i.id = some _
    rw [getBilling_handleReopen s1 ({ i with status := "completed" }) i.id rfl, h1,
        Option.map_some']
  refine ⟨handleComplete_feeHistory, h1, h2, ?_⟩
  have e3 : s3.feeHistory
      = s2.feeHistory ++ [completionEntry s2.now ({ i with status := "paid" })] :=
    handleComplete_feeHistory s2 _
  have e2 : s2.feeHistory = s1.feeHistory := rfl
  have e1 : s1.feeHistory = s.feeHistory ++ [completionEntry s.now i] :=
    handleComplete_feeHistory s i
  rw [e3, e2, e1]
  simp [List.countP_append, completionEntry]

/-- A paid billing item, for the C9 witness. -/
def wit9Item : BillingQueueItem :=
  { id := "b9", visitId := "v9", patientId := "p9", appointmentId := none,
    prescriptionIds := [], status := "paid", feeAmount := 300,
    feeType := "Follow Up", discountPercent := none, discountAmount := none,
    netAmount := 300, paymentMethod := some "cash", paymentStatus := "paid",
    receiptNumber := some "RCPT-1", createdAt := 0 }

/-- A store holding only that paid billing item. -/
def wit9State : DbState :=
  { appointments := [], visits := [], prescriptions := [], pharmacyItems := [],
    billingItems := [wit9Item], receipts := [], feeHistory := [],
    now := 0, nextId := 0, receiptCounter := 1 }

/-- Witness instantiating C9 at the concrete paid item. -/
theorem complete_reopen_complete_double_history_witness :
    ((handleComplete (handleReopen (handleComplete wit9State wit9Item)
        { wit9Item with status := "completed" })
        { wit9Item with status := "paid" }).feeHistory.countP
          (fun e => e.visitId == wit9Item.visitId))
      = wit9State.feeHistory.countP (fun e => e.visitId == wit9Item.visitId) + 2 :=
  (complete_reopen_complete_double_history wit9State wit9Item rfl rfl).2.2.2

/-! Claims C5 and C10: the loadQueue fee resync and its day frame. -/

/-- One resync step never touches the appointment collection or the clock. -/
theorem resyncItem_frame (s : DbState) (item : BillingQueueItem) :
    (resyncItem s item).appointments = s.appointments ∧ (resyncItem s item).now = s.now := by
  simp only [resyncItem]
  by_cases h1 : item.status = "pending"
  · rw [if_pos h1]
    by_cases h2 : (resolvePendingFee s.appointments s.now item).1 = item.feeAmount ∧
        (resolvePendingFee s.appointments s.now item).2.1 = item.feeType ∧
        (resolvePendingFee s.appointments s.now item).2.2 = item.paymentStatus
    · rw [if_pos h2]; exact ⟨rfl, rfl⟩
    · rw [if_neg h2]; exact ⟨rfl, rfl⟩
  · rw [if_neg h1]; exact ⟨rfl, rfl⟩

/-- The resync fold never touches the appointment collection or the clock. -/
theorem resyncFold_frame (l : List BillingQueueItem) :
    ∀ s : DbState, ((l.foldl resyncItem s).appointments = s.appointments ∧
      (l.foldl resyncItem s).now = s.now) := by
  induction l with
  | nil => intro s; exact ⟨rfl, rfl⟩
  | cons j l ih =>
    intro s
    rw [List.foldl_cons]
    refine ⟨(ih _).1.trans (resyncItem_frame s j).1, (ih _).2.trans (resyncItem_frame s j).2⟩

/-- One resync step leaves lookups untouched at any id it does not process as
a pending item. -/
theorem resyncItem_getBilling_frame (s : DbState) (j : BillingQueueItem) (x : String)
    (h : j.id ≠ x ∨ j.status ≠ "pending") :
    getBilling (resyncItem s j) x = getBilling s x := by
  simp only [resyncItem]
  rcases h with h | h
  · by_cases h1 : j.status = "pending"
    · rw [if_pos h1]
      by_cases h2 : (resolvePendingFee s.appointments s.now j).1 = j.feeAmount ∧
          (resolvePendingFee s.appointments s.now j).2.1 = j.feeType ∧
          (resolvePendingFee s.appointments s.now j).2.2 = j.paymentStatus
      · rw [if_pos h2]
      · rw [if_neg h2]
        refine getBilling_updateBilling_ne s j.id x (fun hx => h hx.symm) _ ?_
        exact fun b => rfl
    · rw [if_neg h1]
  · rw [if_neg h]

/-- The resync fold leaves lookups untouched at ids that never occur as a
pending item of the folded list. -/
theorem resyncFold_getBilling_frame (l : List BillingQueueItem) :
    ∀ (s : DbState) (x : String), (∀ j ∈ l, j.id ≠ x ∨ j.status ≠ "pending") →
      getBilling (l.foldl resyncItem s) x = getBilling s x := by
  induction l with
  | nil => intro s x _; rfl
  | cons j l ih =>
    intro s x h
    rw [List.foldl_cons, ih _ x (fun j' hj' => h j' (List.mem_cons_of_mem j hj')),
        resyncItem_getBilling_frame s j x (h j (List.mem_cons_self j l))]

/-- The items of a day keep duplicate-free ids. -/
theorem billingItemsOnDay_ids_nodup (l : List BillingQueueItem) (day : Nat)
    (h : (l.map (fun b => b.id)).Nodup) :
    ((billingItemsOnDay l day).map (fun b => b.id)).Nodup :=
  ((List.filter_sublist l).map (fun b => b.id)).nodup h

/-- The rewritten form of a pending billing item after the loadQueue resync,
for stating C5: resolved fee triple written in, netAmount recomputed against
the stored discount, every other field kept. -/
def resyncPatch (s : DbState) (i : BillingQueueItem) : BillingQueueItem :=
  { i with feeAmount := (resolvePendingFee s.appointments s.now i).1,
           feeType := (resolvePendingFee s.appointments s.now i).2.1,
           paymentStatus := (resolvePendingFee s.appointments s.now i).2.2,
           netAmount := (resolvePendingFee s.appointments s.now i).1
             - (i.discountAmount.getD 0) }

/-- C5: when loadQueue processes the selected day, a pending billing item of
that day is re-resolved: when the resolved fee, feeType or paymentStatus
differs from the stored triple the item is rewritten in place with the
resolved values and netAmount recomputed as the resolved fee minus the stored
discountAmount, while discountPercent and discountAmount are preserved; when
the triple agrees the item is untouched; and an item whose status is not
pending is never resynced. -/
theorem pending_fee_resync (s : DbState) (day : Nat) (i : BillingQueueItem)
    (hnd : (s.billingItems.map (fun b => b.id)).Nodup) (hi : i ∈ s.billingItems) :
    (i.status = "pending" → dayOf i.createdAt = day →
      ¬ ((resolvePendingFee s.appointments s.now i).1 = i.feeAmount ∧
         (resolvePendingFee s.appointments s.now i).2.1 = i.feeType ∧
         (resolvePendingFee s.appointments s.now i).2.2 = i.paymentStatus) →
      getBilling (resyncPendingFees s day) i.id = some (resyncPatch s i)) ∧
    (i.status = "pending" → dayOf i.createdAt = day →
      ((resolvePendingFee s.appointments s.now i).1 = i.feeAmount ∧
       (resolvePendingFee s.appointments s.now i).2.1 = i.feeType ∧
       (resolvePendingFee s.appointments s.now i).2.2 = i.paymentStatus) →
      getBilling (resyncPendingFees s day) i.id = some i) ∧
    (resyncPatch s i).discountPercent = i.discountPercent ∧
    (resyncPatch s i).discountAmount = i.discountAmount ∧
    (i.status ≠ "pending" →
      getBilling (resyncPendingFees s day) i.id = some i) := by
  have hself : getBilling s i.id = some i :=
    find?_key_self (fun b : BillingQueueItem => b.id) i s.billingItems hnd hi
  have hfnd : ((billingItemsOnDay s.billingItems day).map (fun b => b.id)).Nodup :=
    billingItemsOnDay_ids_nodup s.billingItems day hnd
  have hcommon : ∀ (hst : i.status = "pending"), dayOf i.createdAt = day →
      getBilling (resyncPendingFees s day) i.id
        = if ((resolvePendingFee s.appointments s.now i).1 = i.feeAmount ∧
              (resolvePendingFee s.appointments s.now i).2.1 = i.feeType ∧
              (resolvePendingFee s.appointments s.now i).2.2 = i.paymentStatus)
          then some i else some (resyncPatch s i) := by
    intro hst hday
    have hif : i ∈ billingItemsOnDay s.billingItems day :=
      List.mem_filter.mpr ⟨hi, by simp [hday]⟩
    obtain ⟨l1, l2, hsplit⟩ := List.append_of_mem hif
    have hnd12 : ((l1 ++ i :: l2).map (fun b => b.id)).Nodup := by
      rw [← hsplit]; exact hfnd
    have hsub1 : ∀ j ∈ l1, j ∈ billingItemsOnDay s.billingItems day := by
      intro j hj; rw [hsplit]; exact List.mem_append_left _ hj
    have hsub2 : ∀ j ∈ l2, j ∈ billingItemsOnDay s.billingItems day := by
      intro j hj; rw [hsplit]; exact List.mem_append_right _ (List.mem_cons_of_mem i hj)
    have hno1 : ∀ j ∈ l1, j.id ≠ i.id := by
      intro j hj hid
      have hji : j = i := key_inj (fun b : BillingQueueItem => b.id) s.billingItems hnd
        (List.mem_filter.mp (hsub1 j hj)).1 hi hid
      subst hji
      simp only [List.map_append, List.map_cons] at hnd12
      rcases List.nodup_append.mp hnd12 with ⟨_, _, hdisj⟩
      exact hdisj (List.mem_map_of_mem _ hj) (List.mem_cons_self _ _)
    have hno2 : ∀ j ∈ l2, j.id ≠ i.id := by
      intro j hj hid
      have hji : j = i := key_inj (fun b : BillingQueueItem => b.id) s.billingItems hnd
        (List.mem_filter.mp (hsub2 j hj)).1 hi hid
      subst hji
      simp only [List.map_append, List.map_cons] at hnd12
      rcases List.nodup_append.mp hnd12 with ⟨_, hcons, _⟩
      exact (List.nodup_cons.mp hcons).1 (List.mem_map_of_mem _ hj)
    have hAget : getBilling (List.foldl resyncItem s l1) i.id = some i := by
      rw [resyncFold_getBilling_frame l1 s i.id (fun j hj => Or.inl (hno1 j hj)), hself]
    rw [resyncPendingFees, hsplit, List.foldl_append, List.foldl_cons,
        resyncFold_getBilling_frame l2 _ i.id (fun j hj => Or.inl (hno2 j hj))]
    simp only [resyncItem, if_pos hst, (resyncFold_frame l1 s).1, (resyncFold_frame l1 s).2]
    by_cases hc : ((resolvePendingFee s.appointments s.now i).1 = i.feeAmount ∧
        (resolvePendingFee s.appointments s.now i).2.1 = i.feeType ∧
        (resolvePendingFee s.appointments s.now i).2.2 = i.paymentStatus)
    · rw [if_pos hc, if_pos hc, hAget]
    · rw [if_neg hc, if_neg hc]
      have hupd := getBilling_updateBilling (List.foldl resyncItem s l1) i.id
        (fun b => { b with feeAmount := (resolvePendingFee s.appointments s.now i).1,
                           feeType := (resolvePendingFee s.appointments s.now i).2.1,
                           paymentStatus := (resolvePendingFee s.appointments s.now i).2.2,
                           netAmount := (resolvePendingFee s.appointments s.now i).1
                             - (i.discountAmount.getD 0) })
        (fun b => rfl)
      rw [hupd, hAget, Option.map_some']
      rfl
  refine ⟨?_, ?_, rfl, rfl, ?_⟩
  · intro hst hday hne
    rw [hcommon hst hday, if_neg hne]
  · intro hst hday heq
    rw [hcommon hst hday, if_pos heq]
  · intro hnp
    have hfr : ∀ j ∈ billingItemsOnDay s.billingItems day,
        j.id ≠ i.id ∨ j.status ≠ "pending" := by
      intro j hj
      by_cases hjid : j.id = i.id
      · have hji : j = i := key_inj (fun b : BillingQueueItem => b.id) s.billingItems hnd
          (List.mem_filter.mp hj).1 hi hjid
        exact Or.inr (hji ▸ hnp)
      · exact Or.inl hjid
    rw [resyncPendingFees, resyncFold_getBilling_frame _ _ _ hfr, hself]

/-- A pending billing item of day 1, for the C5 witness. -/
def wit5Item : BillingQueueItem :=
  { id := "b5", visitId := "v5", patientId := "p5", appointmentId := some "a5",
    prescriptionIds := [], status := "pending", feeAmount := 300,
    feeType := "Follow Up", discountPercent := none, discountAmount := none,
    netAmount := 300, paymentMethod := none, paymentStatus := "pending",
    receiptNumber := none, createdAt := 86400000 }

/-- A state where the linked appointment of that item now carries fee 800. -/
def wit5State : DbState :=
  { appointments := [{ id := "a5", patientId := "p5", appointmentDate := 86400000,
                       status := "completed", feeAmount := some 800,
                       feeType := some "New Patient", feeStatus := some "paid" }],
    visits := [], prescriptions := [], pharmacyItems := [],
    billingItems := [wit5Item], receipts := [], feeHistory := [],
    now := 86400000, nextId := 0, receiptCounter := 0 }

/-- Witness instantiating C5 at the concrete pending item with a late fee
edit: the stored item is rewritten to the resolved values. -/
theorem pending_fee_resync_witness :
    getBilling (resyncPendingFees wit5State 1) wit5Item.id
      = some (resyncPatch wit5State wit5Item) := by
  have h := (pending_fee_resync wit5State 1 wit5Item (by decide)
    (List.mem_singleton_self wit5Item)).1 rfl rfl
  refine h ?_
  intro hcon
  have : (resolvePendingFee wit5State.appointments wit5State.now wit5Item).1 = 300 := hcon.1
  rw [show (resolvePendingFee wit5State.appointments wit5State.now wit5Item).1 = 800 from rfl]
    at this
  exact absurd this (by norm_num)

/-- C10: the billing loader only considers billing items created on the
selected day: an item of any other day is left stored unchanged by the
resync and appears in neither the pending nor the completed view, whatever
its status; and every listed item belongs to the selected day, with the
pending view holding exactly statuses pending / paid and the completed view
status completed. -/
theorem billing_loader_day_frame (s : DbState) (day : Nat) (b : BillingQueueItem)
    (hnd : (s.billingItems.map (fun x => x.id)).Nodup)
    (hb : b ∈ s.billingItems) (hday : dayOf b.createdAt ≠ day) :
    getBilling (billingLoadQueue s day).1 b.id = some b ∧
    b ∈ (billingLoadQueue s day).1.billingItems ∧
    b ∉ (billingLoadQueue s day).2.1 ∧
    b ∉ (billingLoadQueue s day).2.2 ∧
    (∀ x ∈ (billingLoadQueue s day).2.1,
      dayOf x.createdAt = day ∧ (x.status = "pending" ∨ x.status = "paid")) ∧
    (∀ x ∈ (billingLoadQueue s day).2.2,
      dayOf x.createdAt = day ∧ x.status = "completed") := by
  have hfr : ∀ j ∈ billingItemsOnDay s.billingItems day, j.id ≠ b.id ∨ j.status ≠ "pending" := by
    intro j hj
    left
    intro hjid
    have hji : j = b := key_inj (fun x : BillingQueueItem => x.id) s.billingItems hnd
      (List.mem_filter.mp hj).1 hb hjid
    have : (dayOf j.createdAt == day) = true := (List.mem_filter.mp hj).2
    rw [hji] at this
    exact hday (by simpa using this)
  have h1 : getBilling (billingLoadQueue s day).1 b.id = some b := by
    show getBilling (resyncPendingFees s day) b.id = some b
    rw [resyncPendingFees, resyncFold_getBilling_frame _ _ _ hfr]
    exact find?_key_self (fun x : BillingQueueItem => x.id) b s.billingItems hnd hb
  have hview1 : ∀ x ∈ (billingLoadQueue s day).2.1,
      dayOf x.createdAt = day ∧ (x.status = "pending" ∨ x.status = "paid") := by
    intro x hx
    have hperm := List.mergeSort_perm
      ((billingItemsOnDay (resyncPendingFees s day).billingItems day).filter
        (fun i => i.status == "pending" || i.status == "paid"))
      (fun a c => decide (a.createdAt ≤ c.createdAt))
    have hx' : x ∈ (billingItemsOnDay (resyncPendingFees s day).billingItems day).filter
        (fun i => i.status == "pending" || i.status == "paid") := hperm.mem_iff.mp hx
    rcases List.mem_filter.mp hx' with ⟨hx1, hx2⟩
    rcases List.mem_filter.mp hx1 with ⟨_, hdayx⟩
    exact ⟨by simpa using hdayx, by simpa using hx2⟩
  have hview2 : ∀ x ∈ (billingLoadQueue s day).2.2,
      dayOf x.createdAt = day ∧ x.status = "completed" := by
    intro x hx
    have hperm := List.mergeSort_perm
      ((billingItemsOnDay (resyncPendingFees s day).billingItems day).filter
        (fun i => i.status == "completed"))
      (fun a c => decide (c.createdAt ≤ a.createdAt))
    have hx' : x ∈ (billingItemsOnDay (resyncPendingFees s day).billingItems day).filter
        (fun i => i.status == "completed") := hperm.mem_iff.mp hx
    rcases List.mem_filter.mp hx' with ⟨hx1, hx2⟩
    rcases List.mem_filter.mp hx1 with ⟨_, hdayx⟩
    exact ⟨by simpa using hdayx, by simpa using hx2⟩
  refine ⟨h1, List.mem_of_find?_eq_some h1, ?_, ?_, hview1, hview2⟩
  · intro hmem
    exact hday (hview1 b hmem).1
  · intro hmem
    exact hday (hview2 b hmem).1

/-- A completed billing item created on day 0, for the C10 witness. -/
def wit10Item : BillingQueueItem :=
  { id := "b10", visitId := "v10", patientId := "p10", appointmentId := none,
    prescriptionIds := [], status := "completed", feeAmount := 300,
    feeType := "Follow Up", discountPercent := none, discountAmount := none,
    netAmount := 300, paymentMethod := some "cash", paymentStatus := "paid",
    receiptNumber := some "RCPT-1", createdAt := 0 }

/-- A store holding only that completed day-0 item while day 1 is selected. -/
def wit10State : DbState :=
  { appointments := [], visits := [], prescriptions := [], pharmacyItems := [],
    billingItems := [wit10Item], receipts := [], feeHistory := [],
    now := 86400000, nextId := 0, receiptCounter := 1 }

/-- Witness instantiating C10 at the concrete off-day item. -/
theorem billing_loader_day_frame_witness :
    getBilling (billingLoadQueue wit10State 1).1 wit10Item.id = some wit10Item ∧
    wit10Item ∉ (billingLoadQueue wit10State 1).2.1 ∧
    wit10Item ∉ (billingLoadQueue wit10State 1).2.2 := by
  have h := billing_loader_day_frame wit10State 1 wit10Item (by decide)
    (List.mem_singleton_self wit10Item) (by decide)
  exact ⟨h.1, h.2.2.1, h.2.2.2.1⟩

/-! Claim C1: at most one billing item per visit and sweep idempotence. -/

/-- At most one billing queue item per visit: the visitIds of the collection
repeat nowhere. -/
def UniqueVisitIds (l : List BillingQueueItem) : Prop :=
  (l.map (fun b => b.visitId)).Nodup

/-- One sweep step either leaves the billing collection alone (a billing item
with the visitId of the pharmacy item exists, whatever its status) or appends
one new item carrying that visitId, which then had no prior item. -/
theorem admitPrepared_billing_cases (s : DbState) (p : PharmacyQueueItem) :
    (admitPrepared s p).billingItems = s.billingItems ∨
    ∃ nb, (admitPrepared s p).billingItems = s.billingItems ++ [nb] ∧
      nb.visitId = p.visitId ∧
      s.billingItems.find? (fun b => b.visitId == p.visitId) = none := by
  rcases h : s.billingItems.find? (fun b => b.visitId == p.visitId) with _ | y
  · right
    refine ⟨{ id := freshId s, visitId := p.visitId, patientId := p.patientId,
              appointmentId := p.appointmentId, prescriptionIds := p.prescriptionIds,
              status := "pending", feeAmount := (resolveSweepFee s p).1,
              feeType := (resolveSweepFee s p).2, discountPercent := none,
              discountAmount := none, netAmount := (resolveSweepFee s p).1,
              paymentMethod := none, paymentStatus := "pending", receiptNumber := none,
              createdAt := s.now }, ?_, rfl, h⟩
    simp [admitPrepared, h, createBillingFromPharmacy, updatePharmacy]
  · left
    simp [admitPrepared, h]

/-- One sweep step preserves the at-most-one-item-per-visit invariant. -/
theorem admitPrepared_unique (s : DbState) (p : PharmacyQueueItem)
    (h : UniqueVisitIds s.billingItems) : UniqueVisitIds (admitPrepared s p).billingItems := by
  rcases admitPrepared_billing_cases s p with he | ⟨nb, he, hvid, hnone⟩
  · unfold UniqueVisitIds
    rwa [he]
  · unfold UniqueVisitIds
    rw [he, List.map_append]
    refine List.Nodup.append h (List.nodup_singleton _) ?_
    intro v hv hv1
    have hv1' : v = nb.visitId := by simpa using hv1
    obtain ⟨b, hbm, hbv⟩ := List.mem_map.mp hv
    have := List.find?_eq_none.mp hnone b hbm
    rw [hv1', hvid] at hbv
    simp [hbv] at this

/-- The sweep fold preserves the at-most-one-item-per-visit invariant. -/
theorem sweepFold_unique (ps : List PharmacyQueueItem) :
    ∀ s : DbState, UniqueVisitIds s.billingItems →
      UniqueVisitIds ((ps.foldl admitPrepared s).billingItems) := by
  induction ps with
  | nil => intro s h; exact h
  | cons p rest ih =>
    intro s h
    rw [List.foldl_cons]
    exact ih _ (admitPrepared_unique s p h)

/-- When every folded pharmacy item already has a billing item with its
visitId, the sweep fold changes nothing at all. -/
theorem sweepFold_id (ps : List PharmacyQueueItem) :
    ∀ s : DbState, (∀ p ∈ ps, ∃ b ∈ s.billingItems, b.visitId = p.visitId) →
      ps.foldl admitPrepared s = s := by
  induction ps with
  | nil => intro s _; rfl
  | cons p rest ih =>
    intro s h
    rw [List.foldl_cons]
    obtain ⟨b, hbm, hbv⟩ := h p (List.mem_cons_self p rest)
    have hsome : (s.billingItems.find? (fun x => x.visitId == p.visitId)).isSome :=
      find?_isSome_of_mem hbm (by simp [hbv])
    have heq : admitPrepared s p = s := by
      rcases hf : s.billingItems.find? (fun x => x.visitId == p.visitId) with _ | y
      · rw [hf] at hsome
        exact absurd hsome (by simp)
      · simp [admitPrepared, hf]
    rw [heq]
    exact ih s (fun q hq => h q (List.mem_cons_of_mem p hq))

/-- The invariant the sweep fold maintains: every still-prepared pharmacy item
is either yet to be processed or already covered by a billing item with its
visitId. -/
theorem sweepFold_covers (ps : List PharmacyQueueItem) :
    ∀ s : DbState,
      (∀ q ∈ s.pharmacyItems, q.status = "prepared" →
        q ∈ ps ∨ ∃ b ∈ s.billingItems, b.visitId = q.visitId) →
      ∀ q ∈ (ps.foldl admitPrepared s).pharmacyItems, q.status = "prepared" →
        ∃ b ∈ (ps.foldl admitPrepared s).billingItems, b.visitId = q.visitId := by
  induction ps with
  | nil =>
    intro s hinv q hq hst
    rcases hinv q hq hst with h | h
    · exact absurd h (List.not_mem_nil q)
    · exact h
  | cons p rest ih =>
    intro s hinv
    rw [List.foldl_cons]
    refine ih (admitPrepared s p) ?_
    intro q hq hst
    rcases hfind : s.billingItems.find? (fun b => b.visitId == p.visitId) with _ | y
    · have hq' : q ∈ s.pharmacyItems.map
          (fun x => if x.id == p.id then { x with status := "billed" } else x) := by
        simpa [admitPrepared, hfind, createBillingFromPharmacy, updatePharmacy] using hq
      obtain ⟨q0, hq0, rfl⟩ := List.mem_map.mp hq'
      by_cases h0 : (q0.id == p.id) = true
      · rw [if_pos h0] at hst
        exact absurd (show ("billed" : String) = "prepared" from hst) (by decide)
      · rw [if_neg h0] at hst ⊢
        rcases hinv q0 hq0 hst with hin | ⟨b, hbm, hbv⟩
        · rcases List.mem_cons.mp hin with rfl | hin2
          · exact absurd (by simp) h0
          · exact Or.inl hin2
        · right
          refine ⟨b, ?_, hbv⟩
          rcases admitPrepared_billing_cases s p with heq | ⟨nb, heq, _, _⟩
          · rw [heq]; exact hbm
          · rw [heq]; exact List.mem_append_left _ hbm
    · have hs : admitPrepared s p = s := by simp [admitPrepared, hfind]
      rw [hs] at hq ⊢
      rcases hinv q hq hst with hin | h
      · rcases List.mem_cons.mp hin with rfl | hin2
        · right
          refine ⟨y, List.mem_of_find?_eq_some hfind, ?_⟩
          simpa using List.find?_some hfind
        · exact Or.inl hin2
      · exact Or.inr h

/-- At the start of a sweep every prepared pharmacy item is in the snapshot
list. -/
theorem sweep_init_inv (s : DbState) :
    ∀ q ∈ s.pharmacyItems, q.status = "prepared" →
      q ∈ s.pharmacyItems.filter (fun p => p.status == "prepared") ∨
      ∃ b ∈ s.billingItems, b.visitId = q.visitId :=
  fun q hq hst => Or.inl (List.mem_filter.mpr ⟨hq, by simp [hst]⟩)

/-- After a sweep every still-prepared pharmacy item has a billing item with
its visitId. -/
theorem checkPharmacyQueue_covers (s : DbState) :
    ∀ q ∈ (checkPharmacyQueue s).pharmacyItems, q.status = "prepared" →
      ∃ b ∈ (checkPharmacyQueue s).billingItems, b.visitId = q.visitId :=
  sweepFold_covers _ s (sweep_init_inv s)

/-- One resync step never touches the pharmacy queue. -/
theorem resyncItem_pharmacyItems (s : DbState) (item : BillingQueueItem) :
    (resyncItem s item).pharmacyItems = s.pharmacyItems := by
  simp only [resyncItem]
  by_cases h1 : item.status = "pending"
  · rw [if_pos h1]
    by_cases h2 : (resolvePendingFee s.appointments s.now item).1 = item.feeAmount ∧
        (resolvePendingFee s.appointments s.now item).2.1 = item.feeType ∧
        (resolvePendingFee s.appointments s.now item).2.2 = item.paymentStatus
    · rw [if_pos h2]
    · rw [if_neg h2]
      rfl
  · rw [if_neg h1]

/-- The resync fold never touches the pharmacy queue. -/
theorem resyncFold_pharmacyItems (l : List BillingQueueItem) :
    ∀ s : DbState, (l.foldl resyncItem s).pharmacyItems = s.pharmacyItems := by
  induction l with
  | nil => intro s; rfl
  | cons j l ih =>
    intro s
    rw [List.foldl_cons, ih, resyncItem_pharmacyItems]

/-- One resync step keeps the visitIds of the billing collection, position by
position. -/
theorem resyncItem_visitIds (s : DbState) (item : BillingQueueItem) :
    (resyncItem s item).billingItems.map (fun b => b.visitId)
      = s.billingItems.map (fun b => b.visitId) := by
  simp only [resyncItem]
  by_cases h1 : item.status = "pending"
  · rw [if_pos h1]
    by_cases h2 : (resolvePendingFee s.appointments s.now item).1 = item.feeAmount ∧
        (resolvePendingFee s.appointments s.now item).2.1 = item.feeType ∧
        (resolvePendingFee s.appointments s.now item).2.2 = item.paymentStatus
    · rw [if_pos h2]
    · rw [if_neg h2]
      show (s.billingItems.map _).map _ = _
      rw [List.map_map]
      refine List.map_congr_left ?_
      intro b _
      by_cases hb : b.id = item.id <;> simp [hb]
  · rw [if_neg h1]

/-- The resync fold keeps the visitIds of the billing collection. -/
theorem resyncFold_visitIds (l : List BillingQueueItem) :
    ∀ s : DbState, (l.foldl resyncItem s).billingItems.map (fun b => b.visitId)
      = s.billingItems.map (fun b => b.visitId) := by
  induction l with
  | nil => intro s; rfl
  | cons j l ih =>
    intro s
    rw [List.foldl_cons, ih, resyncItem_visitIds]

/-- The resync fold keeps the number of billing items. -/
theorem resyncFold_length (l : List BillingQueueItem) (s : DbState) :
    (l.foldl resyncItem s).billingItems.length = s.billingItems.length := by
  have := congrArg List.length (resyncFold_visitIds l s)
  simpa using this

/-- One admission step on any store with unique visitIds keeps them unique,
whatever fee the creation branch would write. -/
theorem admission_step_unique (t : DbState) (p : PharmacyQueueItem) (fa : ℚ) (ft : String)
    (h : UniqueVisitIds t.billingItems) :
    UniqueVisitIds
      ((match t.billingItems.find? (fun b : BillingQueueItem => b.visitId == p.visitId) with
        | some _ => t
        | none => createBillingFromPharmacy t p fa ft : DbState)).billingItems := by
  rcases hf : t.billingItems.find? (fun b : BillingQueueItem => b.visitId == p.visitId) with _ | y
  · simp only [hf]
    unfold UniqueVisitIds createBillingFromPharmacy
    dsimp only
    rw [List.map_append]
    refine List.Nodup.append h (List.nodup_singleton _) ?_
    intro v hv hv1
    have hv1' : v = p.visitId := by simpa using hv1
    obtain ⟨b, hbm, hbv⟩ := List.mem_map.mp hv
    have := List.find?_eq_none.mp hf b hbm
    rw [hv1'] at hbv
    simp [hbv] at this
  · simp only [hf]
    exact h

/-- C1: under the at-most-one-billing-item-per-visit invariant, the full
periodic sweep (admission plus the loadQueue resync) preserves the invariant,
the inline admission of markPrepared preserves it, running the full sweep
twice in a row adds no billing item beyond the first run, and the admission
step never creates when any billing item with the same visitId exists,
whatever its status. -/
theorem billing_admission_unique_and_idempotent (s : DbState) (day : Nat) (itemId : String)
    (h : UniqueVisitIds s.billingItems) :
    UniqueVisitIds (pharmacySweep s day).billingItems ∧
    UniqueVisitIds (handleMarkPrepared s itemId).billingItems ∧
    (pharmacySweep (pharmacySweep s day) day).billingItems.length
      = (pharmacySweep s day).billingItems.length ∧
    (∀ (p : PharmacyQueueItem) (b : BillingQueueItem), b ∈ s.billingItems →
      b.visitId = p.visitId → (admitPrepared s p).billingItems = s.billingItems) := by
  have hsw : ∀ t : DbState, pharmacySweep t day = resyncPendingFees (checkPharmacyQueue t) day :=
    fun t => rfl
  refine ⟨?_, ?_, ?_, ?_⟩
  · rw [hsw]
    unfold UniqueVisitIds
    rw [resyncPendingFees, resyncFold_visitIds]
    exact sweepFold_unique _ s h
  · unfold handleMarkPrepared
    rcases getPharmacy s itemId with _ | p
    · exact h
    · dsimp only
      rcases relevantAppointmentFor (markPreparedDb s itemId "pharmacy") p.patientId with _ | a
      · exact admission_step_unique _ p _ _ h
      · exact admission_step_unique _ p _ _ h
  · have hcov : ∀ q ∈ (pharmacySweep s day).pharmacyItems, q.status = "prepared" →
        ∃ b ∈ (pharmacySweep s day).billingItems, b.visitId = q.visitId := by
      intro q hq hst
      rw [hsw] at hq
      rw [resyncPendingFees, resyncFold_pharmacyItems] at hq
      obtain ⟨b, hbm, hbv⟩ := checkPharmacyQueue_covers s q hq hst
      have hv : q.visitId ∈ (pharmacySweep s day).billingItems.map (fun x => x.visitId) := by
        rw [hsw, resyncPendingFees, resyncFold_visitIds]
        exact hbv ▸ List.mem_map_of_mem _ hbm
      obtain ⟨b2, hb2m, hb2v⟩ := List.mem_map.mp hv
      exact ⟨b2, hb2m, hb2v⟩
    have hid2 : checkPharmacyQueue (pharmacySweep s day) = pharmacySweep s day := by
      apply sweepFold_id
      intro p hp
      rcases List.mem_filter.mp hp with ⟨hpm, hpst⟩
      exact hcov p hpm (by simpa using hpst)
    rw [hsw (pharmacySweep s day), hid2, hsw s, resyncPendingFees, resyncFold_length,
        resyncPendingFees, resyncFold_length]
  · intro p b hbm hbv
    have hsome : (s.billingItems.find? (fun x => x.visitId == p.visitId)).isSome :=
      find?_isSome_of_mem hbm (by simp [hbv])
    rcases hf : s.billingItems.find? (fun x => x.visitId == p.visitId) with _ | y
    · rw [hf] at hsome
      exact absurd hsome (by simp)
    · simp [admitPrepared, hf]

/-- A prepared pharmacy item with no billing item yet, for the C1 witness. -/
def wit1Pharm : PharmacyQueueItem :=
  { id := "ph0", visitId := "v0", patientId := "p0", appointmentId := none,
    prescriptionIds := [], priority := false, status := "prepared",
    preparedBy := none, stopReason := none, createdAt := 0 }

/-- A store with one prepared pharmacy item and an empty billing queue. -/
def wit1State : DbState :=
  { appointments := [], visits := [{ id := "v0", patientId := "p0", visitNumber := 1 }],
    prescriptions := [], pharmacyItems := [wit1Pharm], billingItems := [],
    receipts := [], feeHistory := [], now := 0, nextId := 0, receiptCounter := 0 }

/-- Witness instantiating C1 at the concrete store. -/
theorem billing_admission_unique_and_idempotent_witness :
    UniqueVisitIds (pharmacySweep wit1State 0).billingItems ∧
    (pharmacySweep (pharmacySweep wit1State 0) 0).billingItems.length
      = (pharmacySweep wit1State 0).billingItems.length := by
  have h := billing_admission_unique_and_idempotent wit1State 0 "ph0" (by simp [UniqueVisitIds, wit1State])
  exact ⟨h.1, h.2.2.1⟩

end HomeoPMS
